import Mathlib

/-!
Verification development for the transaction ledger ingestion and
categorization engine of the 2100-monitor repository.

The embedding translates the JavaScript source into Lean:

* scanner side (`TransactionTracker`, source file `src/unnamed/part_001`):
  `makeRpcCall` retry loop, `processBlockParallel`, `scanBlockRangeParallel`,
  `loadProgress` / `loadFromProgressFile` / `loadFromCSV`, `weiToEther`,
  `filterTransactionsForAddress`, `processTransaction`,
  `saveTransactionsToCSV` (modelled as list append on tracker state);
* analyzer side (`ComprehensiveTransactionAnalyzer`,
  source file `src/unnamed/part_002`): the constructor time cutoffs,
  `checkForDuplicates`, `analyzeStreaming`'s per-line processing,
  `processTransaction`, `processIncomingTransaction`,
  `processOutgoingTransaction`, `updateDailyStats`, `updateWalletMap`.

The file is laid out with all definitions first, then all lemmas and the
claim theorems.

Modelling conventions:
* JavaScript numbers holding transaction values are modelled as exact
  rationals (`ℚ`); where a claim hinges on IEEE-754 double rounding
  (the `weiToEther` persistence path) an explicit round-to-nearest-even
  binary64 model is used instead.
* JavaScript `Infinity` sentinels (`smallestTopUp`, `earliestTimestamp`,
  `blockRange.min`, `smallestPayout`) are modelled as `Option` with
  `none` standing for `Infinity`.
* `NaN` results of `parseInt`/`parseFloat` on a CSV column are modelled by
  `Option` fields of a parsed row (`none` = NaN); the string-to-number
  parsing itself is taken as the input boundary of the analyzer.
* Network effects are an oracle: a function from block number / tx hash to
  the settled outcome of the corresponding RPC call.
* JS `Map`s are association lists preserving insertion order; JS `Set`s of
  block numbers are `Finset ℕ`.
-/

/-! ## RPC client retry loop (`makeRpcCall`, part_001 lines 376-412)

An attempt is a function from the zero-based retry count to the outcome of
one `axios.post` round trip: `.error e` models a thrown transport error or
an RPC error response (both land in the same `catch`), `.ok none` models a
successful response whose `result` is `null` (e.g. block not found), and
`.ok (some a)` a successful response with a payload.  The loop keeps the
source's `maxRetries = 3` and delay formula `min (100 * retryCount) 500`;
the returned list collects the delays slept between attempts.  The fuel
argument is `maxRetries - retryCount`, so fuel `0` is unreachable from the
initial call; it is mapped to a default error. -/

def makeRpcCallLoop {E A : Type} [Inhabited E] (attempt : ℕ → Except E (Option A)) :
    ℕ → ℕ → Except E (Option A) × List ℕ
  | 0, _ => (.error default, [])
  | fuel + 1, retryCount =>
    match attempt retryCount with
    | .ok r => (.ok r, [])
    | .error e =>
      if retryCount + 1 < 3 then
        let d := min (100 * (retryCount + 1)) 500
        let rest := makeRpcCallLoop attempt fuel (retryCount + 1)
        (rest.1, d :: rest.2)
      else (.error e, [])

def makeRpcCall {E A : Type} [Inhabited E] (attempt : ℕ → Except E (Option A)) :
    Except E (Option A) × List ℕ :=
  makeRpcCallLoop attempt 3 0

/-! ## Chain data and the scanner (`TransactionTracker`, part_001) -/

/-- A transaction as it appears inside a fetched block, after hex decoding:
`tx.value` and `tx.gasPrice` are the numbers denoted by the hex strings the
RPC returns (`BigInt(tx.value)`, `parseInt(tx.gasPrice, 16)`). -/
structure ChainTx where
  hash : String
  fromAddr : String
  toAddr : String
  value : ℕ
  gasPrice : ℕ
deriving Repr, DecidableEq

/-- A block returned by `eth_getBlockByNumber`, after hex decoding of
`block.number` and `block.timestamp`. -/
structure Block where
  number : ℕ
  timestamp : ℕ
  transactions : List ChainTx
deriving Repr, DecidableEq

/-- A receipt returned by `eth_getTransactionReceipt`; `status` keeps the
raw string compared against "0x1" in the source. -/
structure Receipt where
  status : String
  gasUsed : ℕ
deriving Repr, DecidableEq

/-- The settled outcome of the (retried) RPC calls the scanner makes:
`.error` means `makeRpcCall` exhausted its retries and threw, `.ok none`
is a null result (block / receipt not found). -/
structure Oracle where
  blockOf : ℕ → Except Unit (Option Block)
  receiptOf : String → Except Unit (Option Receipt)

/-- Scanner configuration (constructor of `TransactionTracker`). -/
structure ScanCfg where
  address : String
  startBlock : ℕ
  batchSize : ℕ
deriving Repr, DecidableEq

/-- In-memory scanner state: `processedBlocks`/`lastProcessedBlock` mirror
the fields of `TransactionTracker`; `csv` is the sequence of data records
appended to the ledger CSV by `saveTransactionsToCSV`. -/
structure TrackerState where
  processedBlocks : Finset ℕ
  lastProcessedBlock : ℕ
  initialScanCompleted : Bool
  csv : List (List String)
deriving DecidableEq

/-- `hexToDecimal`: the decimal string of the decoded number (`'0'` for a
missing field, which the `ℕ` zero covers). -/
def hexToDecimal (n : ℕ) : String := toString n

/-! ### `weiToEther` (part_001 lines 433-437) and its binary64 model

The source computes `Number(BigInt(wei)) / Math.pow(10, 18)` and renders it
with `toFixed(18)`.  Both the `BigInt → Number` conversion and the division
round to the nearest IEEE-754 binary64 value (ties to even); `toFixed(18)`
then rounds the exact value of that double to 18 decimal fraction digits
(ties pick the larger candidate).  The model below implements this
round-to-nearest-even onto 53 significant bits; subnormal underflow and
overflow to infinity are outside the wei ranges involved and not modelled. -/

/-- Floor base-2 logarithm on `ℕ` by halving; the fuel argument (`n`
itself at the call site) bounds the recursion and exceeds the number of
halvings needed. -/
def log2Go : ℕ → ℕ → ℕ
  | 0, _ => 0
  | fuel + 1, n => if n ≤ 1 then 0 else log2Go fuel (n / 2) + 1

/-- `natLog2 n = ⌊log₂ n⌋` for `n ≥ 1` (see `natLog2_eq`). -/
def natLog2 (n : ℕ) : ℕ := log2Go n n

/-- Ceiling base-2 logarithm on `ℕ`. -/
def clog2Go : ℕ → ℕ → ℕ
  | 0, _ => 0
  | fuel + 1, n => if n ≤ 1 then 0 else clog2Go fuel ((n + 1) / 2) + 1

/-- `natClog2 n = ⌈log₂ n⌉` for `n ≥ 1`. -/
def natClog2 (n : ℕ) : ℕ := clog2Go n n

/-- `⌊log₂ q⌋` for a positive rational: the exponent of the binade
containing `q`. -/
def ratLog2 (q : ℚ) : ℤ :=
  if 1 ≤ q then (natLog2 ⌊q⌋.toNat : ℤ) else -(natClog2 ⌈q⁻¹⌉.toNat : ℤ)

/-- Round a rational to the nearest integer, ties to even. -/
def rnEvenInt (s : ℚ) : ℤ :=
  let fl : ℤ := ⌊s⌋
  let frac : ℚ := s - fl
  if frac < 1/2 then fl
  else if 1/2 < frac then fl + 1
  else if fl % 2 = 0 then fl else fl + 1

/-- Round `q` to the nearest multiple of `2 ^ t` (ties to even). -/
def roundAtExp (q : ℚ) (t : ℤ) : ℚ :=
  if 0 ≤ t then
    ((rnEvenInt (q / (2 : ℚ) ^ t.toNat) : ℚ)) * (2 : ℚ) ^ t.toNat
  else
    ((rnEvenInt (q * (2 : ℚ) ^ (-t).toNat) : ℚ)) / (2 : ℚ) ^ (-t).toNat

/-- Round a nonnegative rational to the nearest binary64 value: 53
significant bits at the exponent of `q`. -/
def roundToDouble (q : ℚ) : ℚ :=
  if q ≤ 0 then 0 else roundAtExp q (ratLog2 q - 52)

/-- Left-pad a digit string with zeros to width `w`. -/
def padLeftZeros (w : ℕ) (s : String) : String :=
  String.mk (List.replicate (w - s.length) '0') ++ s

/-- Render `m / 10^18` (with `m : ℕ`) as a decimal string with exactly 18
fraction digits — the shape `toFixed(18)` produces for nonnegative values
below `10^21`. -/
def decimalString18 (m : ℕ) : String :=
  toString (m / 10 ^ 18) ++ "." ++ padLeftZeros 18 (toString (m % 10 ^ 18))

/-- `toFixed(18)` on the exact (nonnegative, < 10^21) value of a double:
the integer `n` minimizing `|n / 10^18 - x|`, ties to the larger `n`,
rendered with 18 fraction digits. -/
def toFixed18 (x : ℚ) : String :=
  decimalString18 (⌊x * 10 ^ 18 + 1/2⌋).toNat

/-- `weiToEther` (part_001 lines 433-437): convert the wei amount to a
double, divide by `10^18` in double arithmetic, render with `toFixed(18)`. -/
def weiToEther (wei : ℕ) : String :=
  toFixed18 (roundToDouble ((roundToDouble (wei : ℚ)) / 10 ^ 18))

/-- The full-precision decimal rendering of `wei / 10^18` — what the spec's
"wei-to-decimal conversion with full precision" denotes (`wei / 10^18`
always has at most 18 decimal fraction digits). -/
def weiToDecimalFullPrecision (wei : ℕ) : String := decimalString18 wei

/-! ### Block processing (part_001 lines 336-364, 439-500) -/

/-- `filterTransactionsForAddress`: transactions whose `to` or `from`
equals the tracked address, compared lowercased. -/
def filterTransactionsForAddress (cfg : ScanCfg) (b : Block) : List ChainTx :=
  b.transactions.filter fun tx =>
    tx.toAddr.toLower = cfg.address.toLower ∨ tx.fromAddr.toLower = cfg.address.toLower

/-- `processTransaction` (scanner, part_001 lines 461-483): fetch the
receipt and build the CSV record; any thrown error (receipt fetch failure)
is caught and yields `null`, modelled as `none`.  The record is the list of
the nine CSV column strings in file order. -/
def processTransactionScan (o : Oracle) (b : Block) (tx : ChainTx) :
    Option (List String) :=
  match o.receiptOf tx.hash with
  | .error _ => none
  | .ok receipt =>
    some [toString b.number, tx.hash, tx.fromAddr, tx.toAddr,
      weiToEther tx.value,
      (match receipt with | some r => hexToDecimal r.gasUsed | none => "0"),
      hexToDecimal tx.gasPrice,
      toString b.timestamp,
      (match receipt with
       | some r => if r.status = "0x1" then "success" else "failed"
       | none => "unknown")]

/-- The value a settled `processBlockParallel` promise carries. -/
structure BlockProcResult where
  blockNum : ℕ
  transactions : List (List String)
deriving DecidableEq

/-- `processBlockParallel` (part_001 lines 336-364): a null block yields an
empty transaction list; a thrown error (block fetch failure, retries
exhausted) is caught, logged, and ALSO yields `{ blockNum, transactions: [] }`
— the promise still fulfills. -/
def processBlockParallel (cfg : ScanCfg) (o : Oracle) (blockNumber : ℕ) : BlockProcResult :=
  match o.blockOf blockNumber with
  | .error _ => ⟨blockNumber, []⟩
  | .ok none => ⟨blockNumber, []⟩
  | .ok (some b) =>
    ⟨blockNumber, (filterTransactionsForAddress cfg b).filterMap (processTransactionScan o b)⟩

/-- The inclusive integer range `[a, b]` as a list. -/
def blockRangeList (a b : ℕ) : List ℕ := (List.range (b + 1 - a)).map (a + ·)

/-- Marking one settled block processed (part_001 lines 289-291). -/
def markBlock (s : TrackerState) (r : BlockProcResult) : TrackerState :=
  { s with
    processedBlocks := insert r.blockNum s.processedBlocks,
    lastProcessedBlock := max s.lastProcessedBlock r.blockNum }

/-- One batch of `scanBlockRangeParallel` (part_001 lines 276-312): process
every not-yet-processed block of the batch (chunking only throttles
concurrency and does not affect the result order), mark each settled block
processed, advance the watermark, and append the batch's transactions to
the CSV. -/
def processBatch (cfg : ScanCfg) (o : Oracle) (st : TrackerState) (blocks : List ℕ) :
    TrackerState :=
  let results := blocks.map (processBlockParallel cfg o)
  let st1 := results.foldl markBlock st
  { st1 with csv := st1.csv ++ results.foldl (fun acc r => acc ++ r.transactions) [] }

/-- The not-yet-processed blocks of the batch starting at `batchStart`
(part_001 lines 260-268). -/
def batchCandidates (cfg : ScanCfg) (st : TrackerState) (batchStart toBlock : ℕ) : List ℕ :=
  (blockRangeList batchStart (min (batchStart + cfg.batchSize - 1) toBlock)).filter
    (fun b => b ∉ st.processedBlocks)

/-- One iteration of the batch loop: an all-processed batch is skipped
whole (`continue`), otherwise the batch is processed. -/
def stepBatch (cfg : ScanCfg) (o : Oracle) (st : TrackerState) (batchStart toBlock : ℕ) :
    TrackerState :=
  let batchBlocks := batchCandidates cfg st batchStart toBlock
  if batchBlocks = [] then st else processBatch cfg o st batchBlocks

/-- The batch loop of `scanBlockRangeParallel` (part_001 lines 259-326):
`batchStart` walks the clamped range in `batchSize` steps.  The fuel
argument bounds the recursion; the caller passes enough fuel for every
batch start in the range (the JS `for` loop needs no fuel; with
`batchSize = 0` the JS loop would not terminate, and all theorems below
assume `0 < batchSize`). -/
def scanBatchesGo (cfg : ScanCfg) (o : Oracle) :
    ℕ → TrackerState → ℕ → ℕ → TrackerState
  | 0, st, _, _ => st
  | fuel + 1, st, batchStart, toBlock =>
    if toBlock < batchStart then st
    else
      scanBatchesGo cfg o fuel (stepBatch cfg o st batchStart toBlock)
        (batchStart + cfg.batchSize) toBlock

/-- `scanBlockRangeParallel` (part_001 lines 238-331): clamp the lower end
to `startBlock`, return unchanged when the clamped range is empty, then run
the batch loop. -/
def scanBlockRangeParallel (cfg : ScanCfg) (o : Oracle) (st : TrackerState)
    (fromBlock toBlock : ℕ) : TrackerState :=
  let actualFromBlock := max fromBlock cfg.startBlock
  if toBlock < actualFromBlock then st
  else scanBatchesGo cfg o (toBlock + 1 - actualFromBlock) st actualFromBlock toBlock

/-! ## Progress store (part_001 lines 78-193)

The progress file read is modelled as `Except Unit ProgressJson`: `.error`
covers a missing, unreadable or unparseable file (all end in the same
`catch`).  Absent JSON fields are `none`; the source reads them through
`|| 0`, `|| []`, `|| false`.  The ledger CSV read for the fallback is the
list of `parseInt(columns[0])` results of the data lines (`none` = NaN);
`.error` is an unreadable CSV, `.ok []` a CSV with no data lines
(`lines.length <= 1`). -/

structure ProgressJson where
  lastProcessedBlock : Option ℕ
  processedBlocks : Option (List ℕ)
  initialScanCompleted : Option Bool
deriving Repr, DecidableEq

/-- `loadFromProgressFile` (part_001 lines 104-125): on success read the
fields through their defaults and drop processed entries below
`startBlock`; the `catch` resets `lastProcessedBlock` and clears
`processedBlocks` (leaving `initialScanCompleted` as the constructor set
it, `false`). -/
def loadFromProgressFile (cfg : ScanCfg) (read : Except Unit ProgressJson)
    (st : TrackerState) : TrackerState :=
  match read with
  | .error _ => { st with lastProcessedBlock := 0, processedBlocks := ∅ }
  | .ok p =>
    { st with
      lastProcessedBlock := p.lastProcessedBlock.getD 0,
      processedBlocks :=
        ((p.processedBlocks.getD []).filter (fun b => cfg.startBlock ≤ b)).toFinset,
      initialScanCompleted := p.initialScanCompleted.getD false }

/-- `loadFromCSV` (part_001 lines 130-172): with no data lines only the
watermark is set; otherwise the watermark is the maximum block number
`>= startBlock` found (clamped up to `startBlock - 1`) and
`processedBlocks` is rebuilt from those entries; the `catch` mirrors the
progress-file one. -/
def loadFromCSV (cfg : ScanCfg) (read : Except Unit (List (Option ℕ)))
    (st : TrackerState) : TrackerState :=
  match read with
  | .error _ =>
    { st with lastProcessedBlock := cfg.startBlock - 1, processedBlocks := ∅ }
  | .ok rows =>
    if rows.isEmpty then
      { st with lastProcessedBlock := cfg.startBlock - 1 }
    else
      let valid := (rows.filterMap id).filter (fun b => cfg.startBlock ≤ b)
      let maxBlockNumber := valid.foldl max 0
      { st with
        lastProcessedBlock := max maxBlockNumber (cfg.startBlock - 1),
        processedBlocks := valid.toFinset }

/-- `loadProgress` (part_001 lines 78-99): progress file first, CSV
fallback when the loaded watermark is `0`, then the `START_BLOCK` clamp.
Every failure path is absorbed by a `catch`, so the function is total. -/
def loadProgress (cfg : ScanCfg) (progressRead : Except Unit ProgressJson)
    (csvRead : Except Unit (List (Option ℕ))) (st : TrackerState) : TrackerState :=
  let st1 := loadFromProgressFile cfg progressRead st
  let st2 := if st1.lastProcessedBlock = 0 then loadFromCSV cfg csvRead st1 else st1
  if st2.lastProcessedBlock < cfg.startBlock then
    { st2 with lastProcessedBlock := max 0 (cfg.startBlock - 1) }
  else st2

/-- The state `TransactionTracker`'s constructor establishes. -/
def initialTrackerState : TrackerState :=
  { processedBlocks := ∅, lastProcessedBlock := 0, initialScanCompleted := false, csv := [] }

/-- A sequence of scan invocations: each carries its own oracle (the chain
may have grown between ticks) and requested range. -/
def runScans (cfg : ScanCfg) (calls : List (Oracle × ℕ × ℕ)) (st : TrackerState) :
    TrackerState :=
  calls.foldl (fun s c => scanBlockRangeParallel cfg c.1 s c.2.1 c.2.2) st

/-! ## Concrete fixtures used by counterexamples and witnesses -/

/-- An oracle whose every block fetch fails (retries exhausted). -/
def failOracle : Oracle := ⟨fun _ => .error (), fun _ => .ok none⟩

/-- An oracle whose every call returns a null result. -/
def nullOracle : Oracle := ⟨fun _ => .ok none, fun _ => .ok none⟩

/-- A small scanner configuration fixture. -/
def fixtureCfg : ScanCfg := ⟨"0xtracked", 1, 1000⟩

/-! ## Streaming analyzer (`ComprehensiveTransactionAnalyzer`, part_002)

Transaction values are exact rationals (the JS code holds them in doubles;
the categorization claims are structural and independent of rounding).
`from`/`to` are renamed `fromAddr`/`toAddr` (`from` is reserved). -/

/-- A wallet entry of `updateWalletMap` (part_002 lines 702-710). -/
structure WalletEntry where
  count : ℕ
  totalValue : ℚ
  firstSeen : ℕ
  lastSeen : ℕ
deriving DecidableEq

/-- A value-range histogram entry (part_002 lines 666-671). -/
structure RangeEntry where
  count : ℕ
  totalValue : ℚ
deriving DecidableEq

/-- A recorded top-up detail row (part_002 lines 647-655). -/
structure TopUpEntry where
  hash : String
  fromAddr : String
  value : ℚ
  valueSats : ℤ
  timestamp : ℕ
  blockNumber : ℕ
  date : String
deriving DecidableEq

/-- The `satWheel` category counters (part_002 lines 247-258). -/
structure SatWheelStats where
  totalTx : ℕ
  totalAmount : ℚ
  wallets : List (String × WalletEntry)
  oneSatTx : ℕ
  tenSatsTx : ℕ
  oneSatUserTx : ℕ
  oneSatAgentTx : ℕ
  userAmount : ℚ
  agentAmount : ℚ
deriving DecidableEq

/-- Counters shared by `guessTheBlock`, `allIncoming` and `gamingIncoming`
(part_002 lines 259-288). -/
structure SimpleCatStats where
  totalTx : ℕ
  totalAmount : ℚ
  wallets : List (String × WalletEntry)
deriving DecidableEq

/-- The `topUps` counters (part_002 lines 264-270); `smallestTopUp`'s
`Infinity` sentinel is `none`. -/
structure TopUpsStats where
  totalOps : ℕ
  totalAmount : ℚ
  largestTopUp : ℚ
  smallestTopUp : Option ℚ
  transactions : List TopUpEntry
deriving DecidableEq

/-- The `uncategorizedIncoming` counters (part_002 lines 272-277). -/
structure UncatStats where
  totalTx : ℕ
  totalAmount : ℚ
  wallets : List (String × WalletEntry)
  valueRanges : List (String × RangeEntry)
deriving DecidableEq

/-- The `payouts` counters (part_002 lines 290-296). -/
structure PayoutsStats where
  totalTx : ℕ
  totalAmount : ℚ
  wallets : List (String × WalletEntry)
  largestPayout : ℚ
  smallestPayout : Option ℚ
deriving DecidableEq

/-- The `allOutgoing` counters (part_002 lines 297-300). -/
structure AllOutgoingStats where
  totalTx : ℕ
  totalAmount : ℚ
deriving DecidableEq

/-- The `blockRange` extremes (part_002 lines 305-308); `Infinity` is
`none`. -/
structure BlockRangeStats where
  min : Option ℕ
  max : ℕ
deriving DecidableEq

/-- One window's (or one day-bucket's) statistics object —
`createEmptyStats` (part_002 lines 244-310). -/
structure Stats where
  satWheel : SatWheelStats
  guessTheBlock : SimpleCatStats
  topUps : TopUpsStats
  uncategorizedIncoming : UncatStats
  allIncoming : SimpleCatStats
  gamingIncoming : SimpleCatStats
  payouts : PayoutsStats
  allOutgoing : AllOutgoingStats
  totalTransactions : ℕ
  earliestTimestamp : Option ℕ
  latestTimestamp : ℕ
  blockRange : BlockRangeStats
deriving DecidableEq

/-- `createEmptyStats` (part_002 lines 244-310). -/
def createEmptyStats : Stats :=
  { satWheel := ⟨0, 0, [], 0, 0, 0, 0, 0, 0⟩
    guessTheBlock := ⟨0, 0, []⟩
    topUps := ⟨0, 0, 0, none, []⟩
    uncategorizedIncoming := ⟨0, 0, [], []⟩
    allIncoming := ⟨0, 0, []⟩
    gamingIncoming := ⟨0, 0, []⟩
    payouts := ⟨0, 0, [], 0, none⟩
    allOutgoing := ⟨0, 0⟩
    totalTransactions := 0
    earliestTimestamp := none
    latestTimestamp := 0
    blockRange := ⟨none, 0⟩ }

/-- The value thresholds in base units (part_002 lines 24-29). -/
def THRESHOLD_ONE_SAT : ℚ := 1 / 10 ^ 8

def THRESHOLD_TEN_SATS : ℚ := 1 / 10 ^ 7

def THRESHOLD_HUNDRED_SATS : ℚ := 1 / 10 ^ 6

def THRESHOLD_TOP_UP_MIN : ℚ := 1 / 10 ^ 6

/-- `isFloatEqual` (part_002 lines 712-714) at its default tolerance. -/
def isFloatEqual (a b : ℚ) : Prop := |a - b| < 1 / 10 ^ 10

instance (a b : ℚ) : Decidable (isFloatEqual a b) := by
  unfold isFloatEqual
  infer_instance

/-- The constructor's UTC time cutoffs (part_002 lines 31-56), as epoch
seconds.  `Date.UTC` calendar-day arithmetic equals 86400-second arithmetic
on the epoch scale: `todayStart` is the UTC midnight of the analysis
instant, yesterday's last second is `todayStart - 1`, and each N-day window
opens N calendar days before today's midnight. -/
structure TimeCutoffs where
  last7Days : ℤ
  last14Days : ℤ
  last30Days : ℤ
  yesterdayEnd : ℤ
deriving DecidableEq

def mkTimeCutoffs (nowSec : ℕ) : TimeCutoffs :=
  let todayStart : ℤ := ((nowSec / 86400 : ℕ) : ℤ) * 86400
  { last7Days := todayStart - 7 * 86400
    last14Days := todayStart - 14 * 86400
    last30Days := todayStart - 30 * 86400
    yesterdayEnd := todayStart - 1 }

/-- Analyzer configuration: the tracked address (lowercased, from the CSV
filename), the optional agent address (lowercased `AGENT`), the constructor
time cutoffs, and the wall clock used by `Date.now()` in
`updateWalletMap`. -/
structure AnalyzerCfg where
  address : String
  agentAddress : Option String
  cuts : TimeCutoffs
  nowMs : ℕ

/-- The parse results of one CSV data line (part_002 lines 752-762):
`none` models a NaN from `parseInt`/`parseFloat`. -/
structure LedgerRow where
  blockNumber : Option ℕ
  transactionHash : String
  fromAddr : String
  toAddr : String
  value : Option ℚ
  gasUsed : ℕ
  gasPrice : ℕ
  timestamp : Option ℕ
  status : String

/-- The transaction object handed to `processTransaction` after the
validity checks (fields the analyzer reads). -/
structure AnalyzedTx where
  blockNumber : ℕ
  transactionHash : String
  fromAddr : String
  toAddr : String
  value : ℚ
  timestamp : ℕ

/-- Update-or-append on an insertion-ordered association list — the JS
`Map` pattern `if (!m.has(k)) m.set(k, init); mutate(m.get(k))`. -/
def updateAssoc {α : Type} (m : List (String × α)) (k : String) (init : α) (f : α → α) :
    List (String × α) :=
  if m.any (fun kv => kv.1 = k) then
    m.map (fun kv => if kv.1 = k then (kv.1, f kv.2) else kv)
  else m ++ [(k, f init)]

/-- `updateWalletMap` (part_002 lines 702-710). -/
def updateWalletMap (nowMs : ℕ) (walletMap : List (String × WalletEntry)) (address : String)
    (value : ℚ) : List (String × WalletEntry) :=
  updateAssoc walletMap address ⟨0, 0, nowMs, nowMs⟩
    (fun w => ⟨w.count + 1, w.totalValue + value, w.firstSeen, nowMs⟩)

/-- JS `Math.round` (half toward positive infinity). -/
def jsRound (q : ℚ) : ℤ := ⌊q + 1/2⌋

/-- `getValueRange` (part_002 lines 675-684). -/
def getValueRange (sats : ℤ) : String :=
  if sats = 0 then "0 sats"
  else if sats < 1 then "< 1 sat"
  else if sats < 10 then "1-9 sats"
  else if sats < 100 then "10-99 sats"
  else if sats < 1000 then "100-999 sats"
  else if sats < 10000 then "1k-9.9k sats"
  else if sats < 100000 then "10k-99.9k sats"
  else "100k+ sats"

/-- Days-since-epoch to UTC calendar date (year, month, day), the
arithmetic behind `Date.toISOString`'s date part. -/
def civilFromDays (days : ℕ) : ℕ × ℕ × ℕ :=
  let z := days + 719468
  let era := z / 146097
  let doe := z % 146097
  let yoe := (doe - doe / 1460 + doe / 36524 - doe / 146097) / 365
  let y := yoe + era * 400
  let doy := doe - (365 * yoe + yoe / 4 - yoe / 100)
  let mp := (5 * doy + 2) / 153
  let d := doy - (153 * mp + 2) / 5 + 1
  let m := if mp < 10 then mp + 3 else mp - 9
  (if m ≤ 2 then y + 1 else y, m, d)

def pad2 (n : ℕ) : String := if n < 10 then "0" ++ toString n else toString n

def pad4 (n : ℕ) : String := padLeftZeros 4 (toString n)

/-- `getDayKey` (part_002 lines 402-405): the `YYYY-MM-DD` UTC date of an
epoch-seconds timestamp. -/
def getDayKey (ts : ℕ) : String :=
  let c := civilFromDays (ts / 86400)
  pad4 c.1 ++ "-" ++ pad2 c.2.1 ++ "-" ++ pad2 c.2.2

/-- The top-up `date` field (part_002 line 654):
`toISOString().replace('T', ' ').replace('Z', ' UTC')`. -/
def topUpDateString (ts : ℕ) : String :=
  getDayKey ts ++ " " ++ pad2 (ts % 86400 / 3600) ++ ":" ++ pad2 (ts % 3600 / 60) ++ ":" ++
    pad2 (ts % 60) ++ ".000 UTC"

/-- The unconditional all-incoming bump at the top of
`processIncomingTransaction` (part_002 lines 583-586). -/
def bumpAllIncoming (cfg : AnalyzerCfg) (tx : AnalyzedTx) (stats : Stats) : Stats :=
  { stats with
    allIncoming :=
      ⟨stats.allIncoming.totalTx + 1, stats.allIncoming.totalAmount + tx.value,
        updateWalletMap cfg.nowMs stats.allIncoming.wallets tx.fromAddr tx.value⟩ }

/-- The `isFromAgent` test (part_002 line 589): the configured agent
address, when present, compared with the sender. -/
def isFromAgent (cfg : AnalyzerCfg) (tx : AnalyzedTx) : Prop :=
  ∃ a, cfg.agentAddress = some a ∧ tx.fromAddr = a

instance (cfg : AnalyzerCfg) (tx : AnalyzedTx) : Decidable (isFromAgent cfg tx) := by
  unfold isFromAgent
  rcases cfg.agentAddress with _ | a
  · exact .isFalse (by simp)
  · exact decidable_of_iff (tx.fromAddr = a) (by simp)

/-- The exact-match / threshold chain of `processIncomingTransaction`
(part_002 lines 591-672). -/
def categorizeIncoming (cfg : AnalyzerCfg) (tx : AnalyzedTx) (stats : Stats) : Stats :=
  if isFloatEqual tx.value THRESHOLD_ONE_SAT then
    let sw := stats.satWheel
    let sw :=
      { sw with
        totalTx := sw.totalTx + 1, totalAmount := sw.totalAmount + tx.value,
        oneSatTx := sw.oneSatTx + 1,
        wallets := updateWalletMap cfg.nowMs sw.wallets tx.fromAddr tx.value }
    let sw :=
      if isFromAgent cfg tx then
        { sw with oneSatAgentTx := sw.oneSatAgentTx + 1, agentAmount := sw.agentAmount + tx.value }
      else
        { sw with oneSatUserTx := sw.oneSatUserTx + 1, userAmount := sw.userAmount + tx.value }
    { stats with
      satWheel := sw,
      gamingIncoming :=
        ⟨stats.gamingIncoming.totalTx + 1, stats.gamingIncoming.totalAmount + tx.value,
          updateWalletMap cfg.nowMs stats.gamingIncoming.wallets tx.fromAddr tx.value⟩ }
  else if isFloatEqual tx.value THRESHOLD_TEN_SATS then
    { stats with
      satWheel :=
        { stats.satWheel with
          totalTx := stats.satWheel.totalTx + 1,
          totalAmount := stats.satWheel.totalAmount + tx.value,
          tenSatsTx := stats.satWheel.tenSatsTx + 1,
          wallets := updateWalletMap cfg.nowMs stats.satWheel.wallets tx.fromAddr tx.value,
          userAmount := stats.satWheel.userAmount + tx.value },
      gamingIncoming :=
        ⟨stats.gamingIncoming.totalTx + 1, stats.gamingIncoming.totalAmount + tx.value,
          updateWalletMap cfg.nowMs stats.gamingIncoming.wallets tx.fromAddr tx.value⟩ }
  else if isFloatEqual tx.value THRESHOLD_HUNDRED_SATS then
    { stats with
      guessTheBlock :=
        ⟨stats.guessTheBlock.totalTx + 1, stats.guessTheBlock.totalAmount + tx.value,
          updateWalletMap cfg.nowMs stats.guessTheBlock.wallets tx.fromAddr tx.value⟩,
      gamingIncoming :=
        ⟨stats.gamingIncoming.totalTx + 1, stats.gamingIncoming.totalAmount + tx.value,
          updateWalletMap cfg.nowMs stats.gamingIncoming.wallets tx.fromAddr tx.value⟩ }
  else if THRESHOLD_TOP_UP_MIN < tx.value then
    { stats with
      topUps :=
        { totalOps := stats.topUps.totalOps + 1,
          totalAmount := stats.topUps.totalAmount + tx.value,
          largestTopUp := max stats.topUps.largestTopUp tx.value,
          smallestTopUp :=
            some (match stats.topUps.smallestTopUp with
              | none => tx.value
              | some s => min s tx.value),
          transactions := stats.topUps.transactions ++
            [⟨tx.transactionHash, tx.fromAddr, tx.value, jsRound (tx.value * 100000000),
              tx.timestamp, tx.blockNumber, topUpDateString tx.timestamp⟩] } }
  else
    { stats with
      uncategorizedIncoming :=
        { totalTx := stats.uncategorizedIncoming.totalTx + 1,
          totalAmount := stats.uncategorizedIncoming.totalAmount + tx.value,
          wallets :=
            updateWalletMap cfg.nowMs stats.uncategorizedIncoming.wallets tx.fromAddr tx.value,
          valueRanges :=
            updateAssoc stats.uncategorizedIncoming.valueRanges
              (getValueRange (jsRound (tx.value * 100000000))) ⟨0, 0⟩
              (fun r => ⟨r.count + 1, r.totalValue + tx.value⟩) } }

/-- `processIncomingTransaction` (part_002 lines 582-673). -/
def processIncomingTransaction (cfg : AnalyzerCfg) (tx : AnalyzedTx) (stats : Stats) : Stats :=
  categorizeIncoming cfg tx (bumpAllIncoming cfg tx stats)

/-- `processOutgoingTransaction` (part_002 lines 686-700). -/
def processOutgoingTransaction (cfg : AnalyzerCfg) (tx : AnalyzedTx) (stats : Stats) : Stats :=
  { stats with
    payouts :=
      { totalTx := stats.payouts.totalTx + 1,
        totalAmount := stats.payouts.totalAmount + tx.value,
        wallets := updateWalletMap cfg.nowMs stats.payouts.wallets tx.toAddr tx.value,
        largestPayout := max stats.payouts.largestPayout tx.value,
        smallestPayout :=
          some (match stats.payouts.smallestPayout with
            | none => tx.value
            | some s => min s tx.value) },
    allOutgoing :=
      ⟨stats.allOutgoing.totalTx + 1, stats.allOutgoing.totalAmount + tx.value⟩ }

/-- The general per-window bookkeeping (part_002 lines 567-572 and
529-534). -/
def bumpGeneralStats (tx : AnalyzedTx) (stats : Stats) : Stats :=
  { stats with
    totalTransactions := stats.totalTransactions + 1,
    earliestTimestamp :=
      some (match stats.earliestTimestamp with
        | none => tx.timestamp
        | some e => min e tx.timestamp),
    latestTimestamp := max stats.latestTimestamp tx.timestamp,
    blockRange :=
      ⟨some (match stats.blockRange.min with
        | none => tx.blockNumber
        | some m => min m tx.blockNumber),
        max stats.blockRange.max tx.blockNumber⟩ }

/-- One window's update for a relevant transaction: general bookkeeping,
then the incoming branch (taken first) or the outgoing branch (part_002
lines 564-579 and 529-541). -/
def statsStep (cfg : AnalyzerCfg) (tx : AnalyzedTx) (stats : Stats) : Stats :=
  let s := bumpGeneralStats tx stats
  if tx.toAddr = cfg.address then processIncomingTransaction cfg tx s
  else if tx.fromAddr = cfg.address then processOutgoingTransaction cfg tx s
  else s

/-- `processDailyTransaction` (part_002 lines 522-541): same relevance and
value guards as `processTransaction`, then the same per-window body. -/
def processDailyTransaction (cfg : AnalyzerCfg) (tx : AnalyzedTx) (stats : Stats) : Stats :=
  if ¬(tx.toAddr = cfg.address) ∧ ¬(tx.fromAddr = cfg.address) then stats
  else if tx.value ≤ 0 ∨ tx.value < 1 / 10 ^ 18 then stats
  else statsStep cfg tx stats

/-- The four rolling windows (part_002 lines 235-242). -/
structure Analytics where
  allTime : Stats
  last30Days : Stats
  last14Days : Stats
  last7Days : Stats
deriving DecidableEq

/-- Mutable analyzer state across the streaming pass. -/
structure AnalyzerState where
  analytics : Analytics
  dailyAnalytics : List (String × Stats)
  last14DaysBreakdown : List (String × Stats)
  processedCount : ℕ
  excludedCount : ℕ
  totalRelevantTransactions : ℕ

def initialAnalyzerState : AnalyzerState :=
  ⟨⟨createEmptyStats, createEmptyStats, createEmptyStats, createEmptyStats⟩, [], [], 0, 0, 0⟩

/-- `updateDailyStats` (part_002 lines 502-520): route the transaction to
its calendar-day bucket (created empty on first use) and, within the
14-day cutoff, to the breakdown bucket. -/
def updateDailyStats (cfg : AnalyzerCfg) (tx : AnalyzedTx) (st : AnalyzerState) :
    AnalyzerState :=
  let dayKey := getDayKey tx.timestamp
  let daily := updateAssoc st.dailyAnalytics dayKey createEmptyStats
    (processDailyTransaction cfg tx)
  let bd :=
    if cfg.cuts.last14Days ≤ (tx.timestamp : ℤ) then
      updateAssoc st.last14DaysBreakdown dayKey createEmptyStats
        (processDailyTransaction cfg tx)
    else st.last14DaysBreakdown
  { st with dailyAnalytics := daily, last14DaysBreakdown := bd }

/-- `processTransaction` (part_002 lines 543-580): relevance and value
guards, daily routing, then each window whose cutoff the timestamp
satisfies. -/
def processTransactionA (cfg : AnalyzerCfg) (tx : AnalyzedTx) (st : AnalyzerState) :
    AnalyzerState :=
  if ¬(tx.toAddr = cfg.address) ∧ ¬(tx.fromAddr = cfg.address) then st
  else if tx.value ≤ 0 ∨ tx.value < 1 / 10 ^ 18 then st
  else
    let st := updateDailyStats cfg tx st
    let a := st.analytics
    let a := { a with allTime := statsStep cfg tx a.allTime }
    let a :=
      if cfg.cuts.last30Days ≤ (tx.timestamp : ℤ) then
        { a with last30Days := statsStep cfg tx a.last30Days }
      else a
    let a :=
      if cfg.cuts.last14Days ≤ (tx.timestamp : ℤ) then
        { a with last14Days := statsStep cfg tx a.last14Days }
      else a
    let a :=
      if cfg.cuts.last7Days ≤ (tx.timestamp : ℤ) then
        { a with last7Days := statsStep cfg tx a.last7Days }
      else a
    { st with analytics := a }

/-- The per-line body of `analyzeStreaming` (part_002 lines 737-800):
parse-validity and status checks, relevance, today-exclusion, then
`processTransaction` and the processed counter. -/
def analyzeLine (cfg : AnalyzerCfg) (st : AnalyzerState) (row : LedgerRow) : AnalyzerState :=
  match row.blockNumber, row.value, row.timestamp with
  | some bn, some v, some ts =>
    if row.status = "success" then
      let txFrom := row.fromAddr.toLower
      let txTo := row.toAddr.toLower
      if txTo = cfg.address ∨ txFrom = cfg.address then
        let st1 := { st with totalRelevantTransactions := st.totalRelevantTransactions + 1 }
        if cfg.cuts.yesterdayEnd < (ts : ℤ) then
          { st1 with excludedCount := st1.excludedCount + 1 }
        else
          let st2 := processTransactionA cfg ⟨bn, row.transactionHash, txFrom, txTo, v, ts⟩ st1
          { st2 with processedCount := st2.processedCount + 1 }
      else st
    else st
  | _, _, _ => st

/-- `analyzeStreaming`'s main pass over the data lines of the ledger. -/
def analyzeStream (cfg : AnalyzerCfg) (rows : List LedgerRow) : AnalyzerState :=
  rows.foldl (analyzeLine cfg) initialAnalyzerState

/-- One step of `checkForDuplicates` (part_002 lines 347-354): record the
line number of a re-seen hash. -/
def dupInsert (dups : List (String × List ℕ)) (txid : String) (line : ℕ) :
    List (String × List ℕ) :=
  updateAssoc dups txid [] (fun ls => ls ++ [line])

def checkForDuplicatesGo : List LedgerRow → Finset String → List (String × List ℕ) → ℕ →
    List (String × List ℕ)
  | [], _, dups, _ => dups
  | row :: rest, seen, dups, line =>
    if row.transactionHash ∈ seen then
      checkForDuplicatesGo rest seen (dupInsert dups row.transactionHash line) (line + 1)
    else
      checkForDuplicatesGo rest (insert row.transactionHash seen) dups (line + 1)

/-- `checkForDuplicates` (part_002 lines 313-400) over the data lines of
the ledger; the header is file line 1, so the first data line is line 2.
The result maps each duplicated hash to the line numbers of its extra
occurrences. -/
def checkForDuplicates (rows : List LedgerRow) : List (String × List ℕ) :=
  checkForDuplicatesGo rows ∅ [] 2

/-- `this.duplicateCount` (part_002 line 363): total extra occurrences. -/
def duplicateCount (dups : List (String × List ℕ)) : ℕ :=
  (dups.map (fun kv => kv.2.length)).sum

/-! ## Specification-level predicates and concrete fixtures for the analyzer -/

/-- The categorization-completeness invariant of one statistics object:
the all-incoming total equals the sum of the four verified category totals
(part_002 lines 1049-1052). -/
def statsCatInvariant (s : Stats) : Prop :=
  s.allIncoming.totalAmount =
    s.satWheel.totalAmount + s.guessTheBlock.totalAmount + s.topUps.totalAmount +
      s.uncategorizedIncoming.totalAmount

/-- The invariant on every rolling window at once. -/
def analyticsInv (a : Analytics) : Prop :=
  statsCatInvariant a.allTime ∧ statsCatInvariant a.last30Days ∧
    statsCatInvariant a.last14Days ∧ statsCatInvariant a.last7Days

/-- A ledger row that clears every filter of the streaming pass and is an
incoming transaction to the tracked address, timestamped on a complete
day. -/
def rowIncomingProcessed (cfg : AnalyzerCfg) (r : LedgerRow) : Prop :=
  r.status = "success" ∧ r.toAddr.toLower = cfg.address ∧
    (∃ bn, r.blockNumber = some bn) ∧
    (∃ ts, r.timestamp = some ts ∧ (ts : ℤ) ≤ cfg.cuts.yesterdayEnd) ∧
    (∃ v, r.value = some v ∧ 1 / 10 ^ 18 ≤ v)

/-- The bucket a consumer reads for day `k`: the stored stats, or the empty
stats when the day was never touched. -/
def lookupStats (k : String) (m : List (String × Stats)) : Stats :=
  (m.lookup k).getD createEmptyStats

/-- The number of categorized-outcome hits of one window (sat-wheel,
guess-the-block, top-up, uncategorized counts). -/
def catCountSum (s : Stats) : ℕ :=
  s.satWheel.totalTx + s.guessTheBlock.totalTx + s.topUps.totalOps +
    s.uncategorizedIncoming.totalTx

/-- Analyzer configuration fixture: tracked address "a", no agent, cutoffs
for an analysis instant on UTC day 20000. -/
def fixtureAnalyzerCfg : AnalyzerCfg := ⟨"a", none, mkTimeCutoffs 1728000000, 0⟩

/-- A successful incoming ledger row on a complete day. -/
def fixtureRow : LedgerRow :=
  ⟨some 5, "0xabc", "b", "a", some 1, 0, 0, some 1727000000, "success"⟩

/-- A self-transfer transaction fixture (`from = to` = tracked address). -/
def fixtureSelfTx : AnalyzedTx := ⟨5, "0xself", "a", "a", 1, 1727000000⟩

/-- Analyzer configuration fixture for the duplicate-pair witness; the
address is spelled `"a".toLower` so the streaming pass' lowercasing step
matches it definitionally. -/
def fixtureC7Cfg : AnalyzerCfg := ⟨"a".toLower, none, mkTimeCutoffs 1728000000, 0⟩

/-! ## Lemmas about the scan loop

From here on the file contains only lemmas and the claim theorems. -/

lemma mem_blockRangeList {a b x : ℕ} : x ∈ blockRangeList a b ↔ a ≤ x ∧ x ≤ b := by
  unfold blockRangeList
  simp only [List.mem_map, List.mem_range]
  constructor
  · rintro ⟨i, hi, rfl⟩
    omega
  · rintro ⟨h1, h2⟩
    exact ⟨x - a, by omega, by omega⟩

lemma processBlockParallel_blockNum (cfg : ScanCfg) (o : Oracle) (n : ℕ) :
    (processBlockParallel cfg o n).blockNum = n := by
  unfold processBlockParallel
  rcases o.blockOf n with _ | (_ | b) <;> rfl

lemma foldl_markBlock_processedBlocks (st : TrackerState) (rs : List BlockProcResult) :
    (rs.foldl markBlock st).processedBlocks =
      st.processedBlocks ∪ (rs.map (·.blockNum)).toFinset := by
  induction rs generalizing st with
  | nil => simp
  | cons r rs ih =>
    simp only [List.foldl_cons, List.map_cons, List.toFinset_cons, ih]
    ext y
    simp only [markBlock, Finset.mem_union, Finset.mem_insert, List.mem_toFinset]
    tauto

lemma foldl_markBlock_csv (st : TrackerState) (rs : List BlockProcResult) :
    (rs.foldl markBlock st).csv = st.csv := by
  induction rs generalizing st with
  | nil => rfl
  | cons r rs ih => simpa [markBlock] using ih _

lemma foldl_markBlock_lpb_ge (st : TrackerState) (rs : List BlockProcResult) :
    st.lastProcessedBlock ≤ (rs.foldl markBlock st).lastProcessedBlock := by
  induction rs generalizing st with
  | nil => simp
  | cons r rs ih =>
    exact le_trans (le_max_left _ _) (ih (markBlock st r))

lemma foldl_markBlock_isc (st : TrackerState) (rs : List BlockProcResult) :
    (rs.foldl markBlock st).initialScanCompleted = st.initialScanCompleted := by
  induction rs generalizing st with
  | nil => rfl
  | cons r rs ih => simpa [markBlock] using ih _

lemma map_blockNum_processBlockParallel (cfg : ScanCfg) (o : Oracle) (blocks : List ℕ) :
    (blocks.map (processBlockParallel cfg o)).map (·.blockNum) = blocks := by
  induction blocks with
  | nil => rfl
  | cons x xs ih => simp [processBlockParallel_blockNum, ih]

lemma processBatch_processedBlocks (cfg : ScanCfg) (o : Oracle) (st : TrackerState)
    (blocks : List ℕ) :
    (processBatch cfg o st blocks).processedBlocks =
      st.processedBlocks ∪ blocks.toFinset := by
  unfold processBatch
  simp only [foldl_markBlock_processedBlocks, map_blockNum_processBlockParallel]

lemma processBatch_csv_append (cfg : ScanCfg) (o : Oracle) (st : TrackerState)
    (blocks : List ℕ) :
    ∃ extra, (processBatch cfg o st blocks).csv = st.csv ++ extra := by
  unfold processBatch
  exact ⟨(blocks.map (processBlockParallel cfg o)).foldl (fun acc r => acc ++ r.transactions) [],
    by simp only [foldl_markBlock_csv]⟩

lemma processBatch_lpb_ge (cfg : ScanCfg) (o : Oracle) (st : TrackerState)
    (blocks : List ℕ) :
    st.lastProcessedBlock ≤ (processBatch cfg o st blocks).lastProcessedBlock := by
  unfold processBatch
  exact foldl_markBlock_lpb_ge _ _

lemma mem_batchCandidates {cfg : ScanCfg} {st : TrackerState} {bs tb b : ℕ} :
    b ∈ batchCandidates cfg st bs tb ↔
      bs ≤ b ∧ b ≤ min (bs + cfg.batchSize - 1) tb ∧ b ∉ st.processedBlocks := by
  unfold batchCandidates
  rw [List.mem_filter, mem_blockRangeList]
  simp [and_assoc]

lemma stepBatch_processedBlocks (cfg : ScanCfg) (o : Oracle) (st : TrackerState)
    (bs tb : ℕ) :
    (stepBatch cfg o st bs tb).processedBlocks =
      st.processedBlocks ∪ (batchCandidates cfg st bs tb).toFinset := by
  unfold stepBatch
  by_cases h : batchCandidates cfg st bs tb = []
  · simp [h]
  · simp only [h, if_neg, if_false]
    exact processBatch_processedBlocks cfg o st _

lemma stepBatch_csv_append (cfg : ScanCfg) (o : Oracle) (st : TrackerState) (bs tb : ℕ) :
    ∃ extra, (stepBatch cfg o st bs tb).csv = st.csv ++ extra := by
  unfold stepBatch
  by_cases h : batchCandidates cfg st bs tb = []
  · exact ⟨[], by simp [h]⟩
  · simp only [h, if_false]
    exact processBatch_csv_append cfg o st _

lemma stepBatch_lpb_ge (cfg : ScanCfg) (o : Oracle) (st : TrackerState) (bs tb : ℕ) :
    st.lastProcessedBlock ≤ (stepBatch cfg o st bs tb).lastProcessedBlock := by
  unfold stepBatch
  by_cases h : batchCandidates cfg st bs tb = []
  · simp [h]
  · simp only [h, if_false]
    exact processBatch_lpb_ge cfg o st _

lemma stepBatch_skip (cfg : ScanCfg) (o : Oracle) (st : TrackerState) (bs tb : ℕ)
    (h : ∀ b, bs ≤ b → b ≤ tb → b ∈ st.processedBlocks) :
    stepBatch cfg o st bs tb = st := by
  unfold stepBatch
  have he : batchCandidates cfg st bs tb = [] := by
    rw [List.eq_nil_iff_forall_not_mem]
    intro b hb
    rw [mem_batchCandidates] at hb
    exact hb.2.2 (h b hb.1 (le_trans hb.2.1 (min_le_right _ _)))
  simp [he]

lemma scanBatchesGo_pb_mono (cfg : ScanCfg) (o : Oracle) (fuel : ℕ) :
    ∀ (st : TrackerState) (bs tb : ℕ),
      st.processedBlocks ⊆ (scanBatchesGo cfg o fuel st bs tb).processedBlocks := by
  induction fuel with
  | zero => intro st bs tb; exact Finset.Subset.refl _
  | succ fuel ih =>
    intro st bs tb
    unfold scanBatchesGo
    by_cases h : tb < bs
    · simp [h]
    · simp only [if_neg h]
      refine Finset.Subset.trans ?_ (ih _ _ _)
      rw [stepBatch_processedBlocks]
      exact Finset.subset_union_left

lemma scanBatchesGo_covers (cfg : ScanCfg) (o : Oracle) (hB : 0 < cfg.batchSize)
    (fuel : ℕ) :
    ∀ (st : TrackerState) (bs tb b : ℕ),
      bs ≤ b → b ≤ tb → b < bs + fuel * cfg.batchSize →
      b ∈ (scanBatchesGo cfg o fuel st bs tb).processedBlocks := by
  induction fuel with
  | zero =>
    intro st bs tb b h1 h2 h3
    simp only [Nat.zero_mul, Nat.add_zero] at h3
    omega
  | succ fuel ih =>
    intro st bs tb b h1 h2 h3
    unfold scanBatchesGo
    have hbs : ¬ tb < bs := by omega
    simp only [if_neg hbs]
    by_cases hin : b ≤ min (bs + cfg.batchSize - 1) tb
    · -- `b` lies in the current batch: already processed or freshly marked,
      -- and remaining batches only grow the set.
      refine Finset.mem_of_subset (scanBatchesGo_pb_mono cfg o fuel _ _ _) ?_
      rw [stepBatch_processedBlocks]
      by_cases hp : b ∈ st.processedBlocks
      · exact Finset.mem_union_left _ hp
      · refine Finset.mem_union_right _ (List.mem_toFinset.mpr ?_)
        exact mem_batchCandidates.mpr ⟨h1, hin, hp⟩
    · -- `b` lies in a later batch.
      have hmin : min (bs + cfg.batchSize - 1) tb = bs + cfg.batchSize - 1 := by
        rcases le_total (bs + cfg.batchSize - 1) tb with hc | hc
        · exact min_eq_left hc
        · exfalso
          rw [min_eq_right hc] at hin
          omega
      rw [hmin] at hin
      have hmul : (fuel + 1) * cfg.batchSize = fuel * cfg.batchSize + cfg.batchSize := by
        ring
      rw [hmul] at h3
      exact ih _ _ _ _ (by omega) h2 (by omega)

lemma scanBatchesGo_skip (cfg : ScanCfg) (o : Oracle) (fuel : ℕ) :
    ∀ (st : TrackerState) (bs tb : ℕ),
      (∀ b, bs ≤ b → b ≤ tb → b ∈ st.processedBlocks) →
      scanBatchesGo cfg o fuel st bs tb = st := by
  induction fuel with
  | zero => intro st bs tb _; rfl
  | succ fuel ih =>
    intro st bs tb hall
    unfold scanBatchesGo
    by_cases h : tb < bs
    · simp [h]
    · simp only [if_neg h]
      rw [stepBatch_skip cfg o st bs tb hall]
      exact ih st _ tb (fun b h1 h2 => hall b (by omega) h2)

lemma scanBatchesGo_lpb_ge (cfg : ScanCfg) (o : Oracle) (fuel : ℕ) :
    ∀ (st : TrackerState) (bs tb : ℕ),
      st.lastProcessedBlock ≤ (scanBatchesGo cfg o fuel st bs tb).lastProcessedBlock := by
  induction fuel with
  | zero => intro st bs tb; exact le_refl _
  | succ fuel ih =>
    intro st bs tb
    unfold scanBatchesGo
    by_cases h : tb < bs
    · simp [h]
    · simp only [if_neg h]
      exact le_trans (stepBatch_lpb_ge cfg o st bs tb) (ih _ _ _)

lemma scanBatchesGo_pb_lower (cfg : ScanCfg) (o : Oracle) (fuel : ℕ) :
    ∀ (st : TrackerState) (bs tb S : ℕ),
      S ≤ bs →
      (∀ b ∈ st.processedBlocks, S ≤ b) →
      ∀ b ∈ (scanBatchesGo cfg o fuel st bs tb).processedBlocks, S ≤ b := by
  induction fuel with
  | zero => intro st bs tb S _ hst; exact hst
  | succ fuel ih =>
    intro st bs tb S hS hst
    unfold scanBatchesGo
    by_cases h : tb < bs
    · simp only [if_pos h]; exact hst
    · simp only [if_neg h]
      refine ih _ _ _ _ (by omega) ?_
      intro b hb
      rw [stepBatch_processedBlocks] at hb
      rcases Finset.mem_union.mp hb with hb | hb
      · exact hst b hb
      · rw [List.mem_toFinset, mem_batchCandidates] at hb
        omega

lemma scanBatchesGo_csv_append (cfg : ScanCfg) (o : Oracle) (fuel : ℕ) :
    ∀ (st : TrackerState) (bs tb : ℕ),
      ∃ extra, (scanBatchesGo cfg o fuel st bs tb).csv = st.csv ++ extra := by
  induction fuel with
  | zero => intro st bs tb; exact ⟨[], by simp [scanBatchesGo]⟩
  | succ fuel ih =>
    intro st bs tb
    unfold scanBatchesGo
    by_cases h : tb < bs
    · exact ⟨[], by simp [h]⟩
    · simp only [if_neg h]
      obtain ⟨e1, he1⟩ := stepBatch_csv_append cfg o st bs tb
      obtain ⟨e2, he2⟩ := ih (stepBatch cfg o st bs tb) (bs + cfg.batchSize) tb
      exact ⟨e1 ++ e2, by rw [he2, he1, List.append_assoc]⟩

lemma scanBlockRangeParallel_covers (cfg : ScanCfg) (o : Oracle) (st : TrackerState)
    (fromBlock toBlock b : ℕ) (hB : 0 < cfg.batchSize)
    (h1 : max fromBlock cfg.startBlock ≤ b) (h2 : b ≤ toBlock) :
    b ∈ (scanBlockRangeParallel cfg o st fromBlock toBlock).processedBlocks := by
  unfold scanBlockRangeParallel
  have hcond : ¬ toBlock < max fromBlock cfg.startBlock := by omega
  simp only [if_neg hcond]
  set fuel := toBlock + 1 - max fromBlock cfg.startBlock with hfuel
  have hf : fuel ≤ fuel * cfg.batchSize := Nat.le_mul_of_pos_right _ hB
  exact scanBatchesGo_covers cfg o hB fuel st _ _ b h1 h2 (by omega)

lemma scanBlockRangeParallel_skip (cfg : ScanCfg) (o : Oracle) (st : TrackerState)
    (fromBlock toBlock : ℕ)
    (hall : ∀ b, fromBlock ≤ b → b ≤ toBlock → b ∈ st.processedBlocks) :
    scanBlockRangeParallel cfg o st fromBlock toBlock = st := by
  unfold scanBlockRangeParallel
  by_cases hcond : toBlock < max fromBlock cfg.startBlock
  · simp [hcond]
  · simp only [if_neg hcond]
    exact scanBatchesGo_skip cfg o _ st _ toBlock
      (fun b hb1 hb2 => hall b (le_trans (le_max_left _ _) hb1) hb2)

lemma scanBlockRangeParallel_lpb_ge (cfg : ScanCfg) (o : Oracle) (st : TrackerState)
    (fromBlock toBlock : ℕ) :
    st.lastProcessedBlock ≤
      (scanBlockRangeParallel cfg o st fromBlock toBlock).lastProcessedBlock := by
  unfold scanBlockRangeParallel
  by_cases hcond : toBlock < max fromBlock cfg.startBlock
  · simp [hcond]
  · simp only [if_neg hcond]
    exact scanBatchesGo_lpb_ge cfg o _ st _ toBlock

lemma scanBlockRangeParallel_pb_lower (cfg : ScanCfg) (o : Oracle) (st : TrackerState)
    (fromBlock toBlock : ℕ)
    (hst : ∀ b ∈ st.processedBlocks, cfg.startBlock ≤ b) :
    ∀ b ∈ (scanBlockRangeParallel cfg o st fromBlock toBlock).processedBlocks,
      cfg.startBlock ≤ b := by
  unfold scanBlockRangeParallel
  by_cases hcond : toBlock < max fromBlock cfg.startBlock
  · simp only [if_pos hcond]; exact hst
  · simp only [if_neg hcond]
    exact scanBatchesGo_pb_lower cfg o _ st _ toBlock cfg.startBlock (le_max_right _ _) hst

lemma runScans_lpb_ge (cfg : ScanCfg) (calls : List (Oracle × ℕ × ℕ)) :
    ∀ st : TrackerState,
      st.lastProcessedBlock ≤ (runScans cfg calls st).lastProcessedBlock := by
  induction calls with
  | nil => intro st; exact le_refl _
  | cons c cs ih =>
    intro st
    exact le_trans (scanBlockRangeParallel_lpb_ge cfg c.1 st c.2.1 c.2.2) (ih _)

lemma runScans_pb_lower (cfg : ScanCfg) (calls : List (Oracle × ℕ × ℕ)) :
    ∀ st : TrackerState,
      (∀ b ∈ st.processedBlocks, cfg.startBlock ≤ b) →
      ∀ b ∈ (runScans cfg calls st).processedBlocks, cfg.startBlock ≤ b := by
  induction calls with
  | nil => intro st hst; exact hst
  | cons c cs ih =>
    intro st hst
    exact ih _ (scanBlockRangeParallel_pb_lower cfg c.1 st c.2.1 c.2.2 hst)

/-! ## Lemmas about progress loading -/

lemma loadProgress_lpb_ge (cfg : ScanCfg) (pr : Except Unit ProgressJson)
    (cr : Except Unit (List (Option ℕ))) (st : TrackerState) :
    cfg.startBlock - 1 ≤ (loadProgress cfg pr cr st).lastProcessedBlock := by
  unfold loadProgress
  dsimp only
  split <;> split <;> (try simp only [TrackerState.lastProcessedBlock]) <;> omega

lemma loadFromProgressFile_pb_lower (cfg : ScanCfg) (pr : Except Unit ProgressJson)
    (st : TrackerState) :
    ∀ b ∈ (loadFromProgressFile cfg pr st).processedBlocks, cfg.startBlock ≤ b := by
  unfold loadFromProgressFile
  match pr with
  | .error _ => simp
  | .ok p =>
    intro b hb
    simp only [List.mem_toFinset, List.mem_filter] at hb
    simpa using hb.2

lemma loadFromCSV_pb_lower (cfg : ScanCfg) (cr : Except Unit (List (Option ℕ)))
    (st : TrackerState) (hst : ∀ b ∈ st.processedBlocks, cfg.startBlock ≤ b) :
    ∀ b ∈ (loadFromCSV cfg cr st).processedBlocks, cfg.startBlock ≤ b := by
  unfold loadFromCSV
  match cr with
  | .error _ => simp
  | .ok rows =>
    by_cases h : rows.isEmpty
    · simp only [h, if_pos]
      exact hst
    · simp only [h, Bool.false_eq_true, if_false]
      intro b hb
      simp only [List.mem_toFinset, List.mem_filter] at hb
      simpa using hb.2

lemma loadProgress_pb_lower (cfg : ScanCfg) (pr : Except Unit ProgressJson)
    (cr : Except Unit (List (Option ℕ))) (st : TrackerState) :
    ∀ b ∈ (loadProgress cfg pr cr st).processedBlocks, cfg.startBlock ≤ b := by
  unfold loadProgress
  set st1 := loadFromProgressFile cfg pr st with hst1
  have h1 : ∀ b ∈ st1.processedBlocks, cfg.startBlock ≤ b :=
    loadFromProgressFile_pb_lower cfg pr st
  set st2 := if st1.lastProcessedBlock = 0 then loadFromCSV cfg cr st1 else st1 with hst2
  have h2 : ∀ b ∈ st2.processedBlocks, cfg.startBlock ≤ b := by
    rw [hst2]
    by_cases h : st1.lastProcessedBlock = 0
    · simp only [if_pos h]
      exact loadFromCSV_pb_lower cfg cr st1 h1
    · simp only [if_neg h]
      exact h1
  by_cases h : st2.lastProcessedBlock < cfg.startBlock
  · simp only [if_pos h]
    exact h2
  · simp only [if_neg h]
    exact h2

/-! ## Claims about the scanner -/

/-- C8: `makeRpcCall` attempts the request at most 3 times (the result
depends only on the first three attempt outcomes), sleeps the increasing
capped delays `min (100 * attemptNumber) 500` between attempts, propagates
the LAST error when all three attempts fail, and returns a valid-but-empty
(`null`) result immediately, without any retry. -/
theorem claim_C8_rpc_retry_policy {E A : Type} [Inhabited E] :
    (∀ (a b : ℕ → Except E (Option A)), (∀ i, i < 3 → a i = b i) →
        makeRpcCall a = makeRpcCall b) ∧
    (∀ (a : ℕ → Except E (Option A)) (e0 e1 e2 : E),
        a 0 = .error e0 → a 1 = .error e1 → a 2 = .error e2 →
        makeRpcCall a = (.error e2, [min (100 * 1) 500, min (100 * 2) 500]) ∧
          makeRpcCall a = (.error e2, [100, 200])) ∧
    (∀ (a : ℕ → Except E (Option A)),
        a 0 = .ok none → makeRpcCall a = (.ok none, [])) := by
  refine ⟨?_, ?_, ?_⟩
  · intro a b h
    have h0 := h 0 (by norm_num)
    have h1 := h 1 (by norm_num)
    have h2 := h 2 (by norm_num)
    simp only [makeRpcCall, makeRpcCallLoop, h0, h1, h2]
  · intro a e0 e1 e2 h0 h1 h2
    constructor <;> simp [makeRpcCall, makeRpcCallLoop, h0, h1, h2]
  · intro a h0
    simp [makeRpcCall, makeRpcCallLoop, h0]

/-- Witness for C8: a concrete call whose three attempts all fail yields
the last error after delays 100 and 200. -/
theorem claim_C8_witness :
    makeRpcCall (fun _ => (Except.error () : Except Unit (Option Unit))) =
      (.error (), [100, 200]) :=
  (claim_C8_rpc_retry_policy.2.1 (fun _ => .error ()) () () () rfl rfl rfl).2

/-- C2 counterexample: the claim says a block whose fetch fails (retries
exhausted) is NOT added to `processedBlocks` and does not advance
`lastProcessedBlock`.  In the code, `processBlockParallel`'s `catch`
returns a fulfilled `{ blockNum, transactions: [] }`, so the failed block
IS marked processed and advances the watermark: scanning block 1 with an
always-failing oracle leaves `processedBlocks = {1}` and
`lastProcessedBlock = 1`. -/
theorem claim_C2_counterexample :
    failOracle.blockOf 1 = .error () ∧
    1 ∈ (scanBlockRangeParallel fixtureCfg failOracle initialTrackerState 1 1).processedBlocks ∧
    (scanBlockRangeParallel fixtureCfg failOracle initialTrackerState 1 1).lastProcessedBlock
      = 1 := by
  refine ⟨rfl, ?_, ?_⟩ <;> decide

/-- C2 amended: a single block's fetch failure is caught and does not abort
the batch — `processBlockParallel` fulfills with an empty transaction list
— but the failed block IS added to `processedBlocks` (and can advance
`lastProcessedBlock`), so a later scan invocation skips it instead of
retrying it. -/
theorem claim_C2_amended (cfg : ScanCfg) (o : Oracle) (st : TrackerState)
    (N fromBlock toBlock : ℕ) (hB : 0 < cfg.batchSize)
    (hfail : o.blockOf N = .error ())
    (h1 : max fromBlock cfg.startBlock ≤ N) (h2 : N ≤ toBlock) :
    processBlockParallel cfg o N = ⟨N, []⟩ ∧
    N ∈ (scanBlockRangeParallel cfg o st fromBlock toBlock).processedBlocks := by
  constructor
  · unfold processBlockParallel
    rw [hfail]
  · exact scanBlockRangeParallel_covers cfg o st fromBlock toBlock N hB h1 h2

/-- Witness for C2 (amended): block 3 fails inside the range 2-4 and ends
up marked processed. -/
theorem claim_C2_witness :
    processBlockParallel fixtureCfg failOracle 3 = ⟨3, []⟩ ∧
    3 ∈ (scanBlockRangeParallel fixtureCfg failOracle initialTrackerState 2 4).processedBlocks :=
  claim_C2_amended fixtureCfg failOracle initialTrackerState 3 2 4 (by decide) rfl
    (by decide) (by decide)

/-- C3: re-running `scanBlockRangeParallel` over a range every block of
which is already in `processedBlocks` appends zero new records to the
ledger CSV. -/
theorem claim_C3_rescan_appends_nothing (cfg : ScanCfg) (o : Oracle) (st : TrackerState)
    (fromBlock toBlock : ℕ)
    (hall : ∀ b, fromBlock ≤ b → b ≤ toBlock → b ∈ st.processedBlocks) :
    (scanBlockRangeParallel cfg o st fromBlock toBlock).csv = st.csv := by
  rw [scanBlockRangeParallel_skip cfg o st fromBlock toBlock hall]

/-- Witness for C3: rescanning blocks 5-6, both already processed, leaves
the one-record ledger unchanged. -/
theorem claim_C3_witness :
    (scanBlockRangeParallel fixtureCfg nullOracle
        ⟨{5, 6}, 6, true, [["5", "0xabc", "a", "b", "1.000000000000000000", "0", "0", "100", "success"]]⟩
        5 6).csv =
      [["5", "0xabc", "a", "b", "1.000000000000000000", "0", "0", "100", "success"]] :=
  claim_C3_rescan_appends_nothing fixtureCfg nullOracle _ 5 6 (by decide)

/-- C4: for any configured `startBlock`, after loading progress (from any
progress-file and ledger-CSV reads) and after any sequence of scan
invocations, `lastProcessedBlock >= startBlock - 1` and no block below
`startBlock` is in `processedBlocks` — even if the loaded progress record
or old ledger data contains entries below `startBlock`. -/
theorem claim_C4_floor_invariant (cfg : ScanCfg) (pr : Except Unit ProgressJson)
    (cr : Except Unit (List (Option ℕ))) (calls : List (Oracle × ℕ × ℕ)) :
    cfg.startBlock - 1 ≤
        (runScans cfg calls (loadProgress cfg pr cr initialTrackerState)).lastProcessedBlock ∧
    ∀ b ∈ (runScans cfg calls (loadProgress cfg pr cr initialTrackerState)).processedBlocks,
      cfg.startBlock ≤ b := by
  constructor
  · exact le_trans (loadProgress_lpb_ge cfg pr cr initialTrackerState)
      (runScans_lpb_ge cfg calls _)
  · exact runScans_pb_lower cfg calls _ (loadProgress_pb_lower cfg pr cr initialTrackerState)

/-- C10 counterexample: the claim says a progress file that parses but has
`lastProcessedBlock` 0/absent is treated as if no progress record exists,
with both `lastProcessedBlock` and `processedBlocks` re-derived from the
ledger CSV.  In the code such a file's `processedBlocks` survive when the
CSV has no data lines: with file `{lastProcessedBlock: 0, processedBlocks: [5]}`
and an empty CSV the working set is `{5}`, while the genuinely-missing-file
run derives `{}`. -/
theorem claim_C10_counterexample :
    (loadProgress fixtureCfg (.ok ⟨some 0, some [5], some false⟩) (.ok [])
        initialTrackerState).processedBlocks = {5} ∧
    (loadProgress fixtureCfg (.ok ⟨some 0, some [5], some false⟩) (.ok [])
        initialTrackerState).processedBlocks ≠
      (loadProgress fixtureCfg (.error ()) (.ok [])
        initialTrackerState).processedBlocks := by
  constructor <;> decide

/-- C10 amended: a missing/unreadable/unparseable progress file, and one
that parses with `lastProcessedBlock` 0 or absent, both fall back to the
ledger CSV: the resulting `lastProcessedBlock` always equals the one of a
run with no progress record at all, and so does `processedBlocks` whenever
the CSV read fails or has at least one data line (only a parsed file's
`processedBlocks` can survive, and only when the CSV is empty); no
progress-file failure aborts initialization (`loadProgress` is total). -/
theorem claim_C10_amended (cfg : ScanCfg) (pr : Except Unit ProgressJson)
    (cr : Except Unit (List (Option ℕ)))
    (hfb : pr = .error () ∨ ∃ p, pr = .ok p ∧ p.lastProcessedBlock.getD 0 = 0) :
    ((loadProgress cfg pr cr initialTrackerState).lastProcessedBlock =
      (loadProgress cfg (.error ()) cr initialTrackerState).lastProcessedBlock) ∧
    (∀ rows, cr = .ok rows → rows ≠ [] →
      (loadProgress cfg pr cr initialTrackerState).processedBlocks =
        (loadProgress cfg (.error ()) cr initialTrackerState).processedBlocks) ∧
    (cr = .error () →
      (loadProgress cfg pr cr initialTrackerState).processedBlocks =
        (loadProgress cfg (.error ()) cr initialTrackerState).processedBlocks) := by
  rcases hfb with rfl | ⟨p, rfl, hp0⟩
  · exact ⟨rfl, fun _ _ _ => rfl, fun _ => rfl⟩
  · have hstep : ∀ st : TrackerState,
        (loadFromProgressFile cfg (.ok p) st).lastProcessedBlock = 0 := by
      intro st
      simp [loadFromProgressFile, hp0]
    constructor
    · simp only [loadProgress, loadFromProgressFile, hp0, hstep, if_pos]
      rcases cr with _ | rows
      · simp [loadFromCSV]
      · by_cases hrows : rows.isEmpty <;>
          · simp [loadFromCSV, hrows]
            try split <;> rfl
    · constructor
      · rintro rows rfl hne
        have hrows : rows.isEmpty = false := by
          simpa [List.isEmpty_iff] using hne
        simp [loadProgress, loadFromProgressFile, hp0, loadFromCSV, hrows]
        split <;> rfl
      · rintro rfl
        simp [loadProgress, loadFromProgressFile, hp0, loadFromCSV]

/-- Witness for C10 (amended): a parsed progress file with watermark 0 and
a one-row CSV yield the same load result components as a missing file. -/
theorem claim_C10_witness :
    (loadProgress fixtureCfg (.ok ⟨some 0, some [5], some false⟩) (.ok [some 7])
        initialTrackerState).lastProcessedBlock =
      (loadProgress fixtureCfg (.error ()) (.ok [some 7])
        initialTrackerState).lastProcessedBlock ∧
    (loadProgress fixtureCfg (.ok ⟨some 0, some [5], some false⟩) (.ok [some 7])
        initialTrackerState).processedBlocks =
      (loadProgress fixtureCfg (.error ()) (.ok [some 7])
        initialTrackerState).processedBlocks := by
  have h := claim_C10_amended fixtureCfg (.ok ⟨some 0, some [5], some false⟩) (.ok [some 7])
    (Or.inr ⟨_, rfl, rfl⟩)
  exact ⟨h.1, h.2.1 [some 7] rfl (by decide)⟩

/-! ## Lemmas about the binary64 model and claim C6 -/

lemma log2Go_eq : ∀ (fuel n k : ℕ), k ≤ fuel → 2 ^ k ≤ n → n < 2 ^ (k + 1) →
    log2Go fuel n = k := by
  intro fuel
  induction fuel with
  | zero =>
    intro n k hk h1 h2
    interval_cases k
    rfl
  | succ fuel ih =>
    intro n k hk h1 h2
    rw [log2Go]
    by_cases hn : n ≤ 1
    · have hk0 : k = 0 := by
        by_contra hne
        have : 2 ≤ 2 ^ k := by
          calc 2 = 2 ^ 1 := by norm_num
          _ ≤ 2 ^ k := Nat.pow_le_pow_right (by norm_num) (by omega)
        omega
      simp [hn, hk0]
    · simp only [hn, if_false]
      rcases k with _ | k'
      · simp at h2
        omega
      · have hstep : 2 ^ k' ≤ n / 2 := Nat.le_div_iff_mul_le (by norm_num) |>.mpr
          (by rw [pow_succ] at h1; omega)
        have hstep2 : n / 2 < 2 ^ (k' + 1) := by
          rw [Nat.div_lt_iff_lt_mul (by norm_num)]
          rw [pow_succ] at h2
          omega
        rw [ih (n / 2) k' (by omega) hstep hstep2]

lemma natLog2_eq (n k : ℕ) (h1 : 2 ^ k ≤ n) (h2 : n < 2 ^ (k + 1)) : natLog2 n = k := by
  have hk : k ≤ n := le_trans (Nat.le_of_lt (Nat.lt_two_pow k)) h1
  exact log2Go_eq n n k hk h1 h2

lemma log2Go_le : ∀ (fuel n k : ℕ), n < 2 ^ (k + 1) → log2Go fuel n ≤ k := by
  intro fuel
  induction fuel with
  | zero => intro n k _; exact Nat.zero_le _
  | succ fuel ih =>
    intro n k h2
    rw [log2Go]
    by_cases hn : n ≤ 1
    · simp [hn]
    · simp only [hn, if_false]
      rcases k with _ | k'
      · simp at h2; omega
      · have hstep2 : n / 2 < 2 ^ (k' + 1) := by
          rw [Nat.div_lt_iff_lt_mul (by norm_num)]
          rw [pow_succ] at h2
          omega
        have := ih (n / 2) k' hstep2
        omega

lemma rnEvenInt_intCast (z : ℤ) : rnEvenInt (z : ℚ) = z := by
  simp [rnEvenInt]

lemma rnEvenInt_natCast (n : ℕ) : rnEvenInt (n : ℚ) = n := by
  have := rnEvenInt_intCast (n : ℤ)
  rw [show (((n : ℤ) : ℚ)) = (n : ℚ) by push_cast; ring] at this
  exact this

lemma ratLog2_natCast (n : ℕ) (h0 : 0 < n) : ratLog2 (n : ℚ) = natLog2 n := by
  rw [ratLog2, if_pos (by exact_mod_cast h0)]
  norm_num

/-- A natural number with at most 53 significant bits (`n = m * 2^j`,
`m < 2^53`) is exactly representable: the binary64 rounding is the
identity on it. -/
lemma roundToDouble_repr (n : ℕ) (h0 : 0 < n) (m j : ℕ) (hn : n = m * 2 ^ j)
    (hm : m < 2 ^ 53) : roundToDouble (n : ℚ) = n := by
  rw [roundToDouble, if_neg (by exact_mod_cast Nat.not_le.mpr h0), ratLog2_natCast n h0]
  set L := natLog2 n with hL
  have hLle : L ≤ 52 + j := by
    have hlt : n < 2 ^ (52 + j + 1) := by
      rw [hn]
      calc m * 2 ^ j < 2 ^ 53 * 2 ^ j :=
            mul_lt_mul_of_pos_right hm (Nat.pos_pow_of_pos j (by norm_num))
      _ = 2 ^ (53 + j) := by rw [← pow_add]
      _ = 2 ^ (52 + j + 1) := by ring_nf
    exact log2Go_le n n (52 + j) hlt
  rw [roundAtExp]
  by_cases ht : (0 : ℤ) ≤ (L : ℤ) - 52
  · -- 52 ≤ L ≤ 52 + j : the scaled-down significand is still an integer
    rw [if_pos ht]
    have htn : ((L : ℤ) - 52).toNat = L - 52 := by omega
    have hdvd : 2 ^ (L - 52) ∣ n := by
      rw [hn]
      exact Dvd.dvd.mul_left (pow_dvd_pow 2 (by omega)) m
    obtain ⟨d, hd⟩ := hdvd
    rw [htn, hd]
    push_cast
    rw [mul_comm ((2 : ℚ) ^ (L - 52)) (d : ℚ), mul_div_assoc, div_self (by positivity),
      mul_one, rnEvenInt_natCast d]
    push_cast
    ring
  · rw [if_neg ht]
    have hc : ((n : ℚ) * 2 ^ (-((L : ℤ) - 52)).toNat) =
        ((n * 2 ^ (-((L : ℤ) - 52)).toNat : ℕ) : ℚ) := by
      push_cast
      ring
    rw [hc, rnEvenInt_natCast]
    push_cast
    exact mul_div_cancel_right₀ _ (by positivity)

lemma toFixed18_natCast (k : ℕ) : toFixed18 (k : ℚ) = decimalString18 (k * 10 ^ 18) := by
  rw [toFixed18]
  have hfl : ⌊(k : ℚ) * 10 ^ 18 + 1/2⌋ = ((k * 10 ^ 18 : ℕ) : ℤ) := by
    rw [show ((k : ℚ) * 10 ^ 18 + 1/2) = 1/2 + ((k * 10 ^ 18 : ℕ) : ℤ) by push_cast; ring,
      Int.floor_add_int, show ⌊(1/2 : ℚ)⌋ = 0 by norm_num, zero_add]
  rw [hfl, Int.toNat_natCast]

/-- The `Number(BigInt(wei))` conversion at `wei = 10^18 + 1`: the wei
amount has 60 significant bits, so the low bits are rounded away and the
nearest double is exactly `10^18`. -/
lemma roundToDouble_pow18succ : roundToDouble ((10 ^ 18 + 1 : ℕ) : ℚ) = ((10 ^ 18 : ℕ) : ℚ) := by
  rw [roundToDouble, if_neg (by push_cast; norm_num), ratLog2_natCast _ (by norm_num),
    show natLog2 (10 ^ 18 + 1) = 59 from natLog2_eq _ 59 (by norm_num) (by norm_num)]
  rw [roundAtExp, if_pos (by norm_num)]
  rw [show (((59 : ℕ) : ℤ) - 52).toNat = 7 by decide]
  have hfl : ⌊((10 ^ 18 + 1 : ℕ) : ℚ) / 2 ^ 7⌋ = (7812500000000000 : ℤ) := by
    rw [show (((10 ^ 18 + 1 : ℕ) : ℚ) / 2 ^ 7) = ((10 ^ 18 + 1 : ℤ) : ℚ) / ((128 : ℕ) : ℚ) by
      push_cast; norm_num]
    rw [Rat.floor_intCast_div_natCast]
    norm_num
  have hrn : rnEvenInt (((10 ^ 18 + 1 : ℕ) : ℚ) / 2 ^ 7) = 7812500000000000 := by
    simp only [rnEvenInt, hfl]
    rw [if_pos]
    push_cast
    norm_num
  rw [hrn]
  push_cast
  norm_num

/-- C6 counterexample: the claim says the persisted `value` is the
full-precision wei-to-decimal conversion with no floating rounding.  At
`wei = 10^18 + 1` (1.000000000000000001 units) the code's
`Number(BigInt(wei)) / 1e18` path rounds through binary64 and writes
`"1.000000000000000000"`, dropping the final digit. -/
theorem claim_C6_counterexample :
    weiToEther (10 ^ 18 + 1) = "1.000000000000000000" ∧
    weiToDecimalFullPrecision (10 ^ 18 + 1) = "1.000000000000000001" ∧
    weiToEther (10 ^ 18 + 1) ≠ weiToDecimalFullPrecision (10 ^ 18 + 1) := by
  have h1 : weiToEther (10 ^ 18 + 1) = "1.000000000000000000" := by
    rw [weiToEther, roundToDouble_pow18succ]
    have h2 : ((10 ^ 18 : ℕ) : ℚ) / 10 ^ 18 = ((1 : ℕ) : ℚ) := by
      push_cast
      norm_num
    rw [h2, roundToDouble_repr 1 (by norm_num) 1 0 (by norm_num) (by norm_num),
      toFixed18_natCast]
    decide
  refine ⟨h1, by decide, ?_⟩
  rw [h1, weiToDecimalFullPrecision]
  decide

/-- C6 amended: the persisted `value` is `toFixed(18)` of the binary64
quotient `Number(BigInt(wei)) / 1e18` — always a plain decimal string with
exactly 18 fraction digits (never scientific notation, never the wei
integer), but full precision only when the arithmetic is exact in
binary64; in particular it is exact for whole-unit amounts
`wei = k * 10^18` whose significand `k * 5^18` fits in 53 bits, while
`wei = 10^18 + 1` loses its final digit (see the counterexample). -/
theorem claim_C6_amended (k : ℕ) (h0 : 0 < k) (hm : k * 5 ^ 18 < 2 ^ 53) :
    (∀ wei : ℕ, ∃ m : ℕ, weiToEther wei = decimalString18 m) ∧
    weiToEther (k * 10 ^ 18) = weiToDecimalFullPrecision (k * 10 ^ 18) := by
  constructor
  · intro wei
    exact ⟨_, rfl⟩
  · rw [weiToDecimalFullPrecision, weiToEther]
    have h1 : roundToDouble ((k * 10 ^ 18 : ℕ) : ℚ) = ((k * 10 ^ 18 : ℕ) : ℚ) :=
      roundToDouble_repr _ (by positivity) (k * 5 ^ 18) 18
        (by rw [show (10 : ℕ) ^ 18 = 5 ^ 18 * 2 ^ 18 by norm_num, ← mul_assoc]) hm
    rw [h1]
    have h2 : ((k * 10 ^ 18 : ℕ) : ℚ) / 10 ^ 18 = (k : ℚ) := by
      push_cast
      rw [mul_div_assoc]
      norm_num
    rw [h2]
    have hk53 : k < 2 ^ 53 := by
      have hk5 : k ≤ k * 5 ^ 18 := Nat.le_mul_of_pos_right k (by positivity)
      omega
    rw [roundToDouble_repr k h0 k 0 (by ring) hk53, toFixed18_natCast]

/-- Witness for C6 (amended): two whole units are persisted exactly as
`"2.000000000000000000"`. -/
theorem claim_C6_witness :
    weiToEther (2 * 10 ^ 18) = weiToDecimalFullPrecision (2 * 10 ^ 18) :=
  (claim_C6_amended 2 (by norm_num) (by norm_num)).2

/-! ## Lemmas about the analyzer and claims C1, C5, C7, C9 -/

lemma statsCatInvariant_empty : statsCatInvariant createEmptyStats := by
  simp [statsCatInvariant, createEmptyStats]

lemma categorizeIncoming_allIncoming (cfg : AnalyzerCfg) (tx : AnalyzedTx) (s : Stats) :
    (categorizeIncoming cfg tx s).allIncoming = s.allIncoming := by
  unfold categorizeIncoming
  split_ifs <;> rfl

lemma categorizeIncoming_payouts (cfg : AnalyzerCfg) (tx : AnalyzedTx) (s : Stats) :
    (categorizeIncoming cfg tx s).payouts = s.payouts := by
  unfold categorizeIncoming
  split_ifs <;> rfl

lemma categorizeIncoming_allOutgoing (cfg : AnalyzerCfg) (tx : AnalyzedTx) (s : Stats) :
    (categorizeIncoming cfg tx s).allOutgoing = s.allOutgoing := by
  unfold categorizeIncoming
  split_ifs <;> rfl

lemma statsCatInvariant_processIncoming (cfg : AnalyzerCfg) (tx : AnalyzedTx) (s : Stats)
    (h : statsCatInvariant s) :
    statsCatInvariant (processIncomingTransaction cfg tx s) := by
  unfold statsCatInvariant processIncomingTransaction categorizeIncoming bumpAllIncoming at *
  split_ifs <;> simp_all <;> linarith

lemma statsCatInvariant_processOutgoing (cfg : AnalyzerCfg) (tx : AnalyzedTx) (s : Stats)
    (h : statsCatInvariant s) :
    statsCatInvariant (processOutgoingTransaction cfg tx s) := by
  unfold statsCatInvariant processOutgoingTransaction at *
  simpa using h

lemma statsCatInvariant_bumpGeneral (tx : AnalyzedTx) (s : Stats)
    (h : statsCatInvariant s) : statsCatInvariant (bumpGeneralStats tx s) := by
  unfold statsCatInvariant bumpGeneralStats at *
  simpa using h

lemma statsCatInvariant_statsStep (cfg : AnalyzerCfg) (tx : AnalyzedTx) (s : Stats)
    (h : statsCatInvariant s) : statsCatInvariant (statsStep cfg tx s) := by
  unfold statsStep
  split_ifs
  · exact statsCatInvariant_processIncoming cfg tx _ (statsCatInvariant_bumpGeneral tx s h)
  · exact statsCatInvariant_processOutgoing cfg tx _ (statsCatInvariant_bumpGeneral tx s h)
  · exact statsCatInvariant_bumpGeneral tx s h

lemma analyticsInv_processTransactionA (cfg : AnalyzerCfg) (tx : AnalyzedTx)
    (st : AnalyzerState) (h : analyticsInv st.analytics) :
    analyticsInv (processTransactionA cfg tx st).analytics := by
  obtain ⟨h1, h2, h3, h4⟩ := h
  unfold processTransactionA
  split_ifs <;>
    first
      | exact ⟨h1, h2, h3, h4⟩
      | exact ⟨statsCatInvariant_statsStep cfg tx _ h1,
          statsCatInvariant_statsStep cfg tx _ h2,
          statsCatInvariant_statsStep cfg tx _ h3,
          statsCatInvariant_statsStep cfg tx _ h4⟩
      | exact ⟨statsCatInvariant_statsStep cfg tx _ h1,
          statsCatInvariant_statsStep cfg tx _ h2,
          statsCatInvariant_statsStep cfg tx _ h3, h4⟩
      | exact ⟨statsCatInvariant_statsStep cfg tx _ h1,
          statsCatInvariant_statsStep cfg tx _ h2, h3, h4⟩
      | exact ⟨statsCatInvariant_statsStep cfg tx _ h1, h2, h3, h4⟩
      | exact ⟨statsCatInvariant_statsStep cfg tx _ h1,
          statsCatInvariant_statsStep cfg tx _ h2, h3,
          statsCatInvariant_statsStep cfg tx _ h4⟩
      | exact ⟨statsCatInvariant_statsStep cfg tx _ h1, h2,
          statsCatInvariant_statsStep cfg tx _ h3,
          statsCatInvariant_statsStep cfg tx _ h4⟩
      | exact ⟨statsCatInvariant_statsStep cfg tx _ h1, h2, h3,
          statsCatInvariant_statsStep cfg tx _ h4⟩
      | exact ⟨statsCatInvariant_statsStep cfg tx _ h1, h2,
          statsCatInvariant_statsStep cfg tx _ h3, h4⟩

lemma analyticsInv_analyzeLine (cfg : AnalyzerCfg) (st : AnalyzerState) (row : LedgerRow)
    (h : analyticsInv st.analytics) :
    analyticsInv (analyzeLine cfg st row).analytics := by
  unfold analyzeLine
  rcases hb : row.blockNumber with _ | bn <;>
    rcases hv : row.value with _ | v <;>
      rcases hts : row.timestamp with _ | ts <;>
        try exact h
  dsimp only
  split_ifs <;> first
    | exact h
    | exact analyticsInv_processTransactionA cfg _ _ h

lemma analyticsInv_analyzeStream (cfg : AnalyzerCfg) (rows : List LedgerRow) :
    analyticsInv (analyzeStream cfg rows).analytics := by
  unfold analyzeStream
  have hgen : ∀ st : AnalyzerState, analyticsInv st.analytics →
      analyticsInv (rows.foldl (analyzeLine cfg) st).analytics := by
    induction rows with
    | nil => intro st h; exact h
    | cons r rs ih =>
      intro st h
      exact ih _ (analyticsInv_analyzeLine cfg st r h)
  refine hgen initialAnalyzerState ?_
  exact ⟨statsCatInvariant_empty, statsCatInvariant_empty, statsCatInvariant_empty,
    statsCatInvariant_empty⟩

/-- C1: after the analyzer has processed any sequence of ledger records,
each of the four rolling windows satisfies categorization completeness:
the all-incoming total equals (here: exactly, hence within the claimed
1e-8 tolerance) the sum of the sat-wheel, guess-the-block, top-ups and
uncategorized totals. -/
theorem claim_C1_categorization_completeness (cfg : AnalyzerCfg) (rows : List LedgerRow) :
    |(analyzeStream cfg rows).analytics.allTime.allIncoming.totalAmount -
        ((analyzeStream cfg rows).analytics.allTime.satWheel.totalAmount +
          (analyzeStream cfg rows).analytics.allTime.guessTheBlock.totalAmount +
          (analyzeStream cfg rows).analytics.allTime.topUps.totalAmount +
          (analyzeStream cfg rows).analytics.allTime.uncategorizedIncoming.totalAmount)|
      < 1 / 10 ^ 8 ∧
    |(analyzeStream cfg rows).analytics.last30Days.allIncoming.totalAmount -
        ((analyzeStream cfg rows).analytics.last30Days.satWheel.totalAmount +
          (analyzeStream cfg rows).analytics.last30Days.guessTheBlock.totalAmount +
          (analyzeStream cfg rows).analytics.last30Days.topUps.totalAmount +
          (analyzeStream cfg rows).analytics.last30Days.uncategorizedIncoming.totalAmount)|
      < 1 / 10 ^ 8 ∧
    |(analyzeStream cfg rows).analytics.last14Days.allIncoming.totalAmount -
        ((analyzeStream cfg rows).analytics.last14Days.satWheel.totalAmount +
          (analyzeStream cfg rows).analytics.last14Days.guessTheBlock.totalAmount +
          (analyzeStream cfg rows).analytics.last14Days.topUps.totalAmount +
          (analyzeStream cfg rows).analytics.last14Days.uncategorizedIncoming.totalAmount)|
      < 1 / 10 ^ 8 ∧
    |(analyzeStream cfg rows).analytics.last7Days.allIncoming.totalAmount -
        ((analyzeStream cfg rows).analytics.last7Days.satWheel.totalAmount +
          (analyzeStream cfg rows).analytics.last7Days.guessTheBlock.totalAmount +
          (analyzeStream cfg rows).analytics.last7Days.topUps.totalAmount +
          (analyzeStream cfg rows).analytics.last7Days.uncategorizedIncoming.totalAmount)|
      < 1 / 10 ^ 8 := by
  obtain ⟨h1, h2, h3, h4⟩ := analyticsInv_analyzeStream cfg rows
  refine ⟨?_, ?_, ?_, ?_⟩ <;>
    · rw [show _ = _ from ‹statsCatInvariant _›, sub_self, abs_zero]
      norm_num

/-- C5: a ledger record whose timestamp falls within the current UTC
calendar day at analysis time (same epoch day as the analyzer's
wall-clock) changes no rolling-window aggregate and no daily bucket:
`analyzeStreaming` excludes it before `processTransaction` runs. -/
theorem claim_C5_today_excluded (nowSec : ℕ) (cfg : AnalyzerCfg)
    (hc : cfg.cuts = mkTimeCutoffs nowSec) (row : LedgerRow) (t : ℕ)
    (ht : row.timestamp = some t) (hday : t / 86400 = nowSec / 86400)
    (st : AnalyzerState) :
    (analyzeLine cfg st row).analytics = st.analytics ∧
    (analyzeLine cfg st row).dailyAnalytics = st.dailyAnalytics ∧
    (analyzeLine cfg st row).last14DaysBreakdown = st.last14DaysBreakdown := by
  have hex : cfg.cuts.yesterdayEnd < (t : ℤ) := by
    rw [hc]
    unfold mkTimeCutoffs
    have hfloor : (t / 86400) * 86400 ≤ t := Nat.div_mul_le_self t 86400
    rw [hday] at hfloor
    push_cast
    omega
  unfold analyzeLine
  rcases hb : row.blockNumber with _ | bn <;>
    rcases hv : row.value with _ | v <;>
      (rw [ht]) <;>
        try exact ⟨rfl, rfl, rfl⟩
  all_goals
    dsimp only
    -- the exclusion test is decided by hex, so every surviving branch
    -- leaves the aggregates untouched
    split_ifs <;> exact ⟨rfl, rfl, rfl⟩

/-- Witness for C5: a successful incoming record timestamped 1728030000
(same UTC day 20000 as the analysis instant 1728000000) leaves the
rolling-window aggregates untouched. -/
theorem claim_C5_witness :
    (analyzeLine ⟨"a", none, mkTimeCutoffs 1728000000, 0⟩ initialAnalyzerState
        ⟨some 1, "0xhash", "b", "a", some 1, 0, 0, some 1728030000, "success"⟩).analytics =
      initialAnalyzerState.analytics :=
  (claim_C5_today_excluded 1728000000 ⟨"a", none, mkTimeCutoffs 1728000000, 0⟩ rfl
    ⟨some 1, "0xhash", "b", "a", some 1, 0, 0, some 1728030000, "success"⟩ 1728030000 rfl
    (by decide) initialAnalyzerState).1

lemma processIncoming_allIncoming_totalTx (cfg : AnalyzerCfg) (tx : AnalyzedTx) (s : Stats) :
    (processIncomingTransaction cfg tx s).allIncoming.totalTx = s.allIncoming.totalTx + 1 := by
  rw [processIncomingTransaction, categorizeIncoming_allIncoming]
  rfl

lemma statsStep_allIncoming_totalTx (cfg : AnalyzerCfg) (tx : AnalyzedTx) (s : Stats)
    (hto : tx.toAddr = cfg.address) :
    (statsStep cfg tx s).allIncoming.totalTx = s.allIncoming.totalTx + 1 := by
  rw [statsStep]
  simp only [hto, if_pos]
  rw [processIncoming_allIncoming_totalTx]
  rfl

lemma processTransactionA_incoming_shape (cfg : AnalyzerCfg) (tx : AnalyzedTx)
    (st : AnalyzerState) (hto : tx.toAddr = cfg.address) (hv : 1 / 10 ^ 18 ≤ tx.value) :
    (processTransactionA cfg tx st).analytics.allTime = statsStep cfg tx st.analytics.allTime ∧
    (processTransactionA cfg tx st).processedCount = st.processedCount := by
  rw [processTransactionA]
  have h1 : ¬(¬(tx.toAddr = cfg.address) ∧ ¬(tx.fromAddr = cfg.address)) := by
    intro h
    exact h.1 hto
  have h2 : ¬(tx.value ≤ 0 ∨ tx.value < 1 / 10 ^ 18) := by
    push_neg
    constructor
    · calc (0 : ℚ) < 1 / 10 ^ 18 := by norm_num
      _ ≤ tx.value := hv
    · exact hv
  rw [if_neg h1, if_neg h2]
  dsimp only
  constructor
  · split_ifs <;> rfl
  · rfl

lemma analyzeLine_incoming_counts (cfg : AnalyzerCfg) (st : AnalyzerState) (r : LedgerRow)
    (hr : rowIncomingProcessed cfg r) :
    (analyzeLine cfg st r).processedCount = st.processedCount + 1 ∧
    (analyzeLine cfg st r).analytics.allTime.allIncoming.totalTx =
      st.analytics.allTime.allIncoming.totalTx + 1 := by
  obtain ⟨hst, hto, ⟨bn, hbn⟩, ⟨ts, hts, htsle⟩, ⟨v, hv, hvge⟩⟩ := hr
  unfold analyzeLine
  rcases hb' : r.blockNumber with _ | bn'
  · rw [hbn] at hb'; cases hb'
  rcases hv' : r.value with _ | v'
  · rw [hv] at hv'; cases hv'
  rcases hts' : r.timestamp with _ | ts'
  · rw [hts] at hts'; cases hts'
  rw [hbn] at hb'
  rw [hv] at hv'
  rw [hts] at hts'
  cases hb'
  cases hv'
  cases hts'
  dsimp only
  rw [if_pos hst, if_pos (Or.inl hto),
    if_neg (by omega : ¬ cfg.cuts.yesterdayEnd < (ts : ℤ))]
  have hshape := processTransactionA_incoming_shape cfg
    ⟨bn, r.transactionHash, r.fromAddr.toLower, r.toAddr.toLower, v, ts⟩
    { st with totalRelevantTransactions := st.totalRelevantTransactions + 1 } hto hvge
  constructor
  · rw [hshape.2]
  · rw [hshape.1, statsStep_allIncoming_totalTx cfg _ _ hto]

/-- C7: a ledger with exactly two rows sharing one transaction hash makes
the duplicate pass report one duplicated hash with one extra occurrence
(the second row, file line 3), while the main categorization pass still
processes both rows, so both count into the all-incoming totals. -/
theorem claim_C7_duplicate_pair (cfg : AnalyzerCfg) (r1 r2 : LedgerRow)
    (hhash : r1.transactionHash = r2.transactionHash)
    (h1 : rowIncomingProcessed cfg r1) (h2 : rowIncomingProcessed cfg r2) :
    checkForDuplicates [r1, r2] = [(r2.transactionHash, [3])] ∧
    duplicateCount (checkForDuplicates [r1, r2]) = 1 ∧
    (analyzeStream cfg [r1, r2]).processedCount = 2 ∧
    (analyzeStream cfg [r1, r2]).analytics.allTime.allIncoming.totalTx = 2 := by
  have ha := analyzeLine_incoming_counts cfg initialAnalyzerState r1 h1
  have hb := analyzeLine_incoming_counts cfg (analyzeLine cfg initialAnalyzerState r1) r2 h2
  have hdup : checkForDuplicates [r1, r2] = [(r2.transactionHash, [3])] := by
    simp [checkForDuplicates, checkForDuplicatesGo, dupInsert, updateAssoc, hhash]
  refine ⟨hdup, ?_, ?_, ?_⟩
  · rw [hdup]
    simp [duplicateCount]
  · simp only [analyzeStream, List.foldl_cons, List.foldl_nil]
    rw [hb.1, ha.1]
    rfl
  · simp only [analyzeStream, List.foldl_cons, List.foldl_nil]
    rw [hb.2, ha.2]
    rfl

lemma lookup_map_upd {α : Type} (q : String) (f : α → α) :
    ∀ (m : List (String × α)) (k : String),
      (m.map (fun kv => if kv.1 = q then (kv.1, f kv.2) else kv)).lookup k =
        (m.lookup k).map (fun v => if k = q then f v else v) := by
  intro m
  induction m with
  | nil => intro k; rfl
  | cons kv m ih =>
    obtain ⟨a, v⟩ := kv
    intro k
    simp only [List.map_cons]
    by_cases h1 : a = q <;> by_cases h2 : k = a
    · have hk : k = q := h2.trans h1
      simp [List.lookup_cons, h1, h2, hk, beq_iff_eq]
    · have hk : ¬k = q := fun h => h2 (h.trans h1.symm)
      simp [List.lookup_cons, h1, h2, hk, beq_iff_eq, ih, beq_false_of_ne hk]
    · have hk : ¬k = q := fun h => h1 ((h2.symm.trans h) ▸ rfl)
      simp [List.lookup_cons, h1, h2, hk, beq_iff_eq]
    · simp [List.lookup_cons, h1, h2, ih, beq_iff_eq, beq_false_of_ne h2]

lemma any_eq_lookup {α : Type} :
    ∀ (m : List (String × α)) (q : String),
      m.any (fun kv => kv.1 = q) = (m.lookup q).isSome := by
  intro m
  induction m with
  | nil => intro q; rfl
  | cons kv m ih =>
    obtain ⟨a, v⟩ := kv
    intro q
    by_cases h : a = q
    · subst h
      simp [List.lookup_cons, List.any_cons]
    · have hqa : ¬q = a := fun hh => h hh.symm
      simp [List.lookup_cons, List.any_cons, h, beq_false_of_ne hqa, ih]

lemma lookup_updateAssoc {α : Type} (m : List (String × α)) (k q : String) (init : α)
    (f : α → α) :
    (updateAssoc m q init f).lookup k =
      if k = q then some (f ((m.lookup q).getD init)) else m.lookup k := by
  unfold updateAssoc
  by_cases hany : m.any (fun kv => kv.1 = q)
  · rw [if_pos hany, lookup_map_upd]
    rw [any_eq_lookup] at hany
    by_cases hk : k = q
    · subst hk
      obtain ⟨v, hv⟩ := Option.isSome_iff_exists.mp hany
      simp [hv]
    · simp [hk]
  · rw [if_neg hany, List.lookup_append]
    rw [any_eq_lookup] at hany
    have hnone : m.lookup q = none := by
      cases h : m.lookup q
      · rfl
      · rw [h] at hany; simp at hany
    by_cases hk : k = q
    · subst hk
      simp [hnone, List.lookup_cons, beq_iff_eq]
    · simp [List.lookup_cons, hk, beq_iff_eq, beq_false_of_ne hk, hnone]

lemma lookupStats_updateAssoc (m : List (String × Stats)) (k q : String) (f : Stats → Stats) :
    lookupStats k (updateAssoc m q createEmptyStats f) =
      if k = q then f (lookupStats k m) else lookupStats k m := by
  unfold lookupStats
  rw [lookup_updateAssoc]
  by_cases hk : k = q
  · subst hk
    simp
  · simp [hk]

lemma categorizeIncoming_catCountSum (cfg : AnalyzerCfg) (tx : AnalyzedTx) (s : Stats) :
    catCountSum (categorizeIncoming cfg tx s) = catCountSum s + 1 := by
  unfold catCountSum categorizeIncoming
  split_ifs <;> simp <;> omega

lemma statsStep_incoming_frames (cfg : AnalyzerCfg) (tx : AnalyzedTx) (s : Stats)
    (hto : tx.toAddr = cfg.address) :
    (statsStep cfg tx s).payouts = s.payouts ∧
    (statsStep cfg tx s).allOutgoing = s.allOutgoing ∧
    (statsStep cfg tx s).allIncoming.totalTx = s.allIncoming.totalTx + 1 ∧
    catCountSum (statsStep cfg tx s) = catCountSum s + 1 := by
  rw [statsStep]
  simp only [hto, if_pos]
  refine ⟨?_, ?_, ?_, ?_⟩
  · rw [processIncomingTransaction, categorizeIncoming_payouts]
    rfl
  · rw [processIncomingTransaction, categorizeIncoming_allOutgoing]
    rfl
  · rw [processIncoming_allIncoming_totalTx]
    rfl
  · rw [processIncomingTransaction, categorizeIncoming_catCountSum]
    rfl

lemma processDaily_incoming_frames (cfg : AnalyzerCfg) (tx : AnalyzedTx) (s : Stats)
    (hto : tx.toAddr = cfg.address) :
    (processDailyTransaction cfg tx s).payouts = s.payouts ∧
    (processDailyTransaction cfg tx s).allOutgoing = s.allOutgoing := by
  unfold processDailyTransaction
  split_ifs
  · exact ⟨rfl, rfl⟩
  · exact ⟨rfl, rfl⟩
  · exact ⟨(statsStep_incoming_frames cfg tx s hto).1,
      (statsStep_incoming_frames cfg tx s hto).2.1⟩

lemma processTransactionA_parts (cfg : AnalyzerCfg) (tx : AnalyzedTx) (st : AnalyzerState)
    (hto : tx.toAddr = cfg.address) (hv : 1 / 10 ^ 18 ≤ tx.value) :
    ((processTransactionA cfg tx st).analytics.allTime =
        statsStep cfg tx st.analytics.allTime) ∧
    ((processTransactionA cfg tx st).analytics.last30Days =
        statsStep cfg tx st.analytics.last30Days ∨
      (processTransactionA cfg tx st).analytics.last30Days = st.analytics.last30Days) ∧
    ((processTransactionA cfg tx st).analytics.last14Days =
        statsStep cfg tx st.analytics.last14Days ∨
      (processTransactionA cfg tx st).analytics.last14Days = st.analytics.last14Days) ∧
    ((processTransactionA cfg tx st).analytics.last7Days =
        statsStep cfg tx st.analytics.last7Days ∨
      (processTransactionA cfg tx st).analytics.last7Days = st.analytics.last7Days) ∧
    ((processTransactionA cfg tx st).dailyAnalytics =
        updateAssoc st.dailyAnalytics (getDayKey tx.timestamp) createEmptyStats
          (processDailyTransaction cfg tx)) ∧
    ((processTransactionA cfg tx st).last14DaysBreakdown =
        updateAssoc st.last14DaysBreakdown (getDayKey tx.timestamp) createEmptyStats
          (processDailyTransaction cfg tx) ∨
      (processTransactionA cfg tx st).last14DaysBreakdown = st.last14DaysBreakdown) := by
  rw [processTransactionA]
  have h1 : ¬(¬(tx.toAddr = cfg.address) ∧ ¬(tx.fromAddr = cfg.address)) := by
    intro h
    exact h.1 hto
  have h2 : ¬(tx.value ≤ 0 ∨ tx.value < 1 / 10 ^ 18) := by
    push_neg
    constructor
    · calc (0 : ℚ) < 1 / 10 ^ 18 := by norm_num
      _ ≤ tx.value := hv
    · exact hv
  rw [if_neg h1, if_neg h2]
  dsimp only
  refine ⟨?_, ?_, ?_, ?_, ?_, ?_⟩
  · split_ifs <;> rfl
  · split_ifs <;> first | exact Or.inl rfl | exact Or.inr rfl
  · split_ifs <;> first | exact Or.inl rfl | exact Or.inr rfl
  · split_ifs <;> first | exact Or.inl rfl | exact Or.inr rfl
  · rfl
  · simp only [updateDailyStats]
    split_ifs <;> first | exact Or.inl rfl | exact Or.inr rfl

/-- C9: a successful positive-value self-transfer (`from = to = tracked
address`) is classified as incoming only: the all-incoming counter and
exactly one incoming category are incremented, while the payouts and
all-outgoing counters of every rolling window and of every daily bucket
(and breakdown bucket) are unchanged — the incoming branch is taken
exclusively before the outgoing branch. -/
theorem claim_C9_self_transfer (cfg : AnalyzerCfg) (tx : AnalyzedTx) (st : AnalyzerState)
    (hto : tx.toAddr = cfg.address) (_hfrom : tx.fromAddr = cfg.address)
    (hv : 1 / 10 ^ 18 ≤ tx.value) :
    ((processTransactionA cfg tx st).analytics.allTime.allIncoming.totalTx =
        st.analytics.allTime.allIncoming.totalTx + 1) ∧
    (catCountSum (processTransactionA cfg tx st).analytics.allTime =
        catCountSum st.analytics.allTime + 1) ∧
    ((processTransactionA cfg tx st).analytics.allTime.payouts =
        st.analytics.allTime.payouts ∧
      (processTransactionA cfg tx st).analytics.last30Days.payouts =
        st.analytics.last30Days.payouts ∧
      (processTransactionA cfg tx st).analytics.last14Days.payouts =
        st.analytics.last14Days.payouts ∧
      (processTransactionA cfg tx st).analytics.last7Days.payouts =
        st.analytics.last7Days.payouts) ∧
    ((processTransactionA cfg tx st).analytics.allTime.allOutgoing =
        st.analytics.allTime.allOutgoing ∧
      (processTransactionA cfg tx st).analytics.last30Days.allOutgoing =
        st.analytics.last30Days.allOutgoing ∧
      (processTransactionA cfg tx st).analytics.last14Days.allOutgoing =
        st.analytics.last14Days.allOutgoing ∧
      (processTransactionA cfg tx st).analytics.last7Days.allOutgoing =
        st.analytics.last7Days.allOutgoing) ∧
    (∀ k, (lookupStats k (processTransactionA cfg tx st).dailyAnalytics).payouts =
          (lookupStats k st.dailyAnalytics).payouts ∧
        (lookupStats k (processTransactionA cfg tx st).dailyAnalytics).allOutgoing =
          (lookupStats k st.dailyAnalytics).allOutgoing) ∧
    (∀ k, (lookupStats k (processTransactionA cfg tx st).last14DaysBreakdown).payouts =
          (lookupStats k st.last14DaysBreakdown).payouts ∧
        (lookupStats k (processTransactionA cfg tx st).last14DaysBreakdown).allOutgoing =
          (lookupStats k st.last14DaysBreakdown).allOutgoing) := by
  obtain ⟨hAT, h30, h14, h7, hD, hB⟩ := processTransactionA_parts cfg tx st hto hv
  have hf := fun s => statsStep_incoming_frames cfg tx s hto
  refine ⟨?_, ?_, ⟨?_, ?_, ?_, ?_⟩, ⟨?_, ?_, ?_, ?_⟩, ?_, ?_⟩
  · rw [hAT]
    exact (hf _).2.2.1
  · rw [hAT]
    exact (hf _).2.2.2
  · rw [hAT]
    exact (hf _).1
  · rcases h30 with h | h <;> rw [h]
    exact (hf _).1
  · rcases h14 with h | h <;> rw [h]
    exact (hf _).1
  · rcases h7 with h | h <;> rw [h]
    exact (hf _).1
  · rw [hAT]
    exact (hf _).2.1
  · rcases h30 with h | h <;> rw [h]
    exact (hf _).2.1
  · rcases h14 with h | h <;> rw [h]
    exact (hf _).2.1
  · rcases h7 with h | h <;> rw [h]
    exact (hf _).2.1
  · intro k
    rw [hD, lookupStats_updateAssoc]
    by_cases hk : k = getDayKey tx.timestamp
    · rw [if_pos hk]
      exact ⟨(processDaily_incoming_frames cfg tx _ hto).1,
        (processDaily_incoming_frames cfg tx _ hto).2⟩
    · rw [if_neg hk]
      exact ⟨rfl, rfl⟩
  · intro k
    rcases hB with h | h
    · rw [h, lookupStats_updateAssoc]
      by_cases hk : k = getDayKey tx.timestamp
      · rw [if_pos hk]
        exact ⟨(processDaily_incoming_frames cfg tx _ hto).1,
          (processDaily_incoming_frames cfg tx _ hto).2⟩
      · rw [if_neg hk]
        exact ⟨rfl, rfl⟩
    · rw [h]
      exact ⟨rfl, rfl⟩

/-- Witness for C7: two identical incoming rows sharing hash "0xabc" give
one duplicate with one extra occurrence and are both processed. -/
theorem claim_C7_witness :
    checkForDuplicates [fixtureRow, fixtureRow] = [("0xabc", [3])] ∧
    (analyzeStream fixtureC7Cfg [fixtureRow, fixtureRow]).processedCount = 2 := by
  have hrip : rowIncomingProcessed fixtureC7Cfg fixtureRow :=
    ⟨rfl, rfl, ⟨5, rfl⟩, ⟨1727000000, rfl, by decide⟩, ⟨1, rfl, by norm_num⟩⟩
  have h := claim_C7_duplicate_pair fixtureC7Cfg fixtureRow fixtureRow rfl hrip hrip
  exact ⟨h.1, h.2.2.1⟩

/-- Witness for C9: a one-unit self-transfer bumps the all-time
all-incoming count and leaves the all-time payouts untouched. -/
theorem claim_C9_witness :
    (processTransactionA fixtureAnalyzerCfg fixtureSelfTx initialAnalyzerState).analytics.allTime.allIncoming.totalTx
        = initialAnalyzerState.analytics.allTime.allIncoming.totalTx + 1 ∧
    (processTransactionA fixtureAnalyzerCfg fixtureSelfTx initialAnalyzerState).analytics.allTime.payouts
        = initialAnalyzerState.analytics.allTime.payouts := by
  have h := claim_C9_self_transfer fixtureAnalyzerCfg fixtureSelfTx initialAnalyzerState rfl rfl
    (by norm_num [fixtureSelfTx])
  exact ⟨h.1, h.2.2.1.1⟩
